import Mathlib

/-!
Verification development for the bscreen repository.

Shallow embedding of the parts of the program that the statements below
refer to:

- `src/gfx.rs`: `Size::to_physical` / `Size::to_logical`, the `DrawBuffer`
  vertex/index/command accumulator and its push operations;
- `src/wayland_screencopy.rs`: the `Screencopy` capture-session state
  machine (listener callbacks `handle_ready`, `handle_failed`,
  `handle_linux_dmabuf`, `handle_buffer_done`) and `ScreencopyDmabuf::new`;
- `src/main.rs`: the event arm of `Dispatch<ZwlrScreencopyFrameV1, usize>`
  (a second, slightly different screencopy machine) and
  `App::capture_all_screens`;
- `src/wayland_overlay.rs`: the `Overlay` configuration state machine
  (`handle_preferred_scale`, `handle_configure`, `Overlay::configure`).

Modelling conventions: Rust `u32`/`u64`/`i32` values are carried as `ℕ`/`ℤ`
with explicit wrapping or saturation where a cast occurs in the source;
`f64` arithmetic is modelled exactly over `ℚ` (the binary rounding error of
`f64` itself is not modelled; every concrete input used below is hand
checkable in `f64`); Rust panics (`unwrap`, `expect`, `assert!`,
`unimplemented!`, `unreachable!`) are modelled as `none` / a dedicated
`fatal` outcome; fallible calls into the platform (EGL, libwayland) are
modelled by boolean/value fields of an explicit environment record that is
part of the triggering event.
-/

namespace Bscreen

/-! ### gfx.rs: scalar helpers -/

/-- Model of Rust `f64::round`: rounds half away from zero. -/
def roundHalfAway (q : ℚ) : ℤ :=
  if 0 ≤ q then ⌊q + 1 / 2⌋ else ⌈q - 1 / 2⌉

/-- Model of the Rust float-to-`u32` cast (`as u32`), which saturates at the
bounds of the target type. -/
def satU32 (i : ℤ) : ℕ :=
  if i < 0 then 0 else min i.toNat (2 ^ 32 - 1)

/-- One axis of `Size::to_physical`: `((w as f64) * scale_factor).round() as u32`. -/
def scaleRound (w : ℕ) (s : ℚ) : ℕ :=
  satU32 (roundHalfAway ((w : ℚ) * s))

/-- One axis of `Size::to_logical`: `((w as f64) / scale_factor).round() as u32`. -/
def invScaleRound (w : ℕ) (s : ℚ) : ℕ :=
  satU32 (roundHalfAway ((w : ℚ) / s))

/-- gfx.rs `Size` (two `u32` fields). -/
structure Size where
  width : ℕ
  height : ℕ
deriving DecidableEq

/-- gfx.rs `Size::to_physical` (rounds to nearest, ties away from zero). -/
def Size.to_physical (sz : Size) (scale_factor : ℚ) : Size :=
  ⟨scaleRound sz.width scale_factor, scaleRound sz.height scale_factor⟩

/-- gfx.rs `Size::to_logical` (rounds to nearest, ties away from zero). -/
def Size.to_logical (sz : Size) (scale_factor : ℚ) : Size :=
  ⟨invScaleRound sz.width scale_factor, invScaleRound sz.height scale_factor⟩

/-! ### gfx.rs: vectors, colors, rects -/

/-- gfx.rs `Vec2`, with `f32` components modelled over `ℚ`. -/
structure Vec2 where
  x : ℚ
  y : ℚ
deriving DecidableEq

instance : Add Vec2 := ⟨fun a b => ⟨a.x + b.x, a.y + b.y⟩⟩

instance : Sub Vec2 := ⟨fun a b => ⟨a.x - b.x, a.y - b.y⟩⟩

instance : HMul Vec2 ℚ Vec2 := ⟨fun v k => ⟨v.x * k, v.y * k⟩⟩

/-- gfx.rs `Vec2::splat`. -/
def Vec2.splat (v : ℚ) : Vec2 := ⟨v, v⟩

/-- gfx.rs `Vec2::dot`. -/
def Vec2.dot (a b : Vec2) : ℚ := a.x * b.x + a.y * b.y

/-- Stand-in for the `f32` square root used by `Vec2::length`. No theorem in
this file depends on the numeric values it produces: the statements below
concern only the command/index bookkeeping of `DrawBuffer`, never the
computed vertex positions. -/
def sqrtApprox (q : ℚ) : ℚ :=
  (Nat.sqrt q.num.toNat : ℚ) / (Nat.sqrt q.den : ℚ)

/-- gfx.rs `Vec2::length`. -/
def Vec2.length (v : Vec2) : ℚ := sqrtApprox (v.dot v)

/-- gfx.rs `Vec2::normalize_or_zero`. Over `ℚ`, `1 / 0 = 0`, which lands in
the same `else` branch the non-finite reciprocal takes in the source. -/
def Vec2.normalize_or_zero (v : Vec2) : Vec2 :=
  let reciprocal_length := 1 / v.length
  if 0 < reciprocal_length then v * reciprocal_length else Vec2.splat 0

/-- gfx.rs `Vec2::perp`. -/
def Vec2.perp (v : Vec2) : Vec2 := ⟨-v.y, v.x⟩

/-- gfx.rs `compute_line_width_offset`. -/
def compute_line_width_offset (a b : Vec2) (width : ℚ) : Vec2 :=
  let dir : Vec2 := b - a
  let norm_dir : Vec2 := dir.normalize_or_zero
  let perp : Vec2 := norm_dir.perp
  perp * (width * (1 / 2))

/-- gfx.rs `Rgba8` (four `u8` components). -/
structure Rgba8 where
  r : ℕ
  g : ℕ
  b : ℕ
  a : ℕ
deriving DecidableEq

/-- gfx.rs `Rgba8::WHITE`. -/
def Rgba8.WHITE : Rgba8 := ⟨255, 255, 255, 255⟩

/-- gfx.rs `Rect`. -/
structure Rect where
  min : Vec2
  max : Vec2
deriving DecidableEq

/-- gfx.rs `Rect::top_left`. -/
def Rect.top_left (r : Rect) : Vec2 := r.min

/-- gfx.rs `Rect::top_right`. -/
def Rect.top_right (r : Rect) : Vec2 := ⟨r.max.x, r.min.y⟩

/-- gfx.rs `Rect::bottom_left`. -/
def Rect.bottom_left (r : Rect) : Vec2 := ⟨r.min.x, r.max.y⟩

/-- gfx.rs `Rect::bottom_right`. -/
def Rect.bottom_right (r : Rect) : Vec2 := r.max

/-- gfx.rs `RectFill`. -/
inductive RectFill where
  | TextureHandle (handle : ℕ)
  | Color (color : Rgba8)
deriving DecidableEq

/-! ### gfx.rs: DrawBuffer -/

/-- gfx.rs `Vertex`. -/
structure Vertex where
  position : Vec2
  tex_coord : Vec2
  color : Rgba8
deriving DecidableEq

/-- gfx.rs `DrawCommand`. The `u32` index fields are carried as `ℕ`
holding the wrapped 32-bit values that the `as u32` casts in
`DrawBuffer::commit` store. -/
structure DrawCommand where
  start_index : ℕ
  end_index : ℕ
  texture_handle : Option ℕ
deriving DecidableEq

/-- gfx.rs `DrawBuffer`. -/
structure DrawBuffer where
  vertices : List Vertex
  indices : List ℕ
  pending_indices : ℕ
  draw_commands : List DrawCommand
deriving DecidableEq

/-- `DrawBuffer::default()`. -/
def DrawBuffer.empty : DrawBuffer := ⟨[], [], 0, []⟩

/-- gfx.rs `DrawBuffer::push_vertex`. -/
def DrawBuffer.push_vertex (b : DrawBuffer) (vertex : Vertex) : DrawBuffer :=
  { b with vertices := b.vertices ++ [vertex] }

/-- gfx.rs `DrawBuffer::push_triangle`. -/
def DrawBuffer.push_triangle (b : DrawBuffer) (zero ichi ni : ℕ) : DrawBuffer :=
  { b with
    indices := b.indices ++ [zero, ichi, ni],
    pending_indices := b.pending_indices + 3 }

/-- gfx.rs `DrawBuffer::commit`: closes the pending indices into one
`DrawCommand`; a call with zero pending indices returns early. The two
`as u32` casts of the stored `start_index`/`end_index` wrap, modelled with
`% 2 ^ 32`. -/
def DrawBuffer.commit (b : DrawBuffer) (texture_handle : Option ℕ) : DrawBuffer :=
  if b.pending_indices = 0 then b
  else
    { b with
      draw_commands := b.draw_commands ++
        [⟨(b.indices.length - b.pending_indices) % 2 ^ 32,
          b.indices.length % 2 ^ 32, texture_handle⟩],
      pending_indices := 0 }

/-- gfx.rs `DrawBuffer::clear`; `assert!(pending_indices == 0)` is modelled
as `none` (panic) when the assertion fails. -/
def DrawBuffer.clear (b : DrawBuffer) : Option DrawBuffer :=
  if b.pending_indices = 0 then
    some { b with vertices := [], indices := [], draw_commands := [] }
  else none

/-- gfx.rs `DrawBuffer::push_line`. -/
def DrawBuffer.push_line (b : DrawBuffer) (a c : Vec2) (width : ℚ) (color : Rgba8) :
    DrawBuffer :=
  let idx := b.vertices.length
  let perp := compute_line_width_offset a c width
  let b := b.push_vertex ⟨a - perp, ⟨0, 0⟩, color⟩
  let b := b.push_vertex ⟨c - perp, ⟨1, 0⟩, color⟩
  let b := b.push_vertex ⟨c + perp, ⟨1, 1⟩, color⟩
  let b := b.push_vertex ⟨a + perp, ⟨0, 1⟩, color⟩
  let b := b.push_triangle (idx + 0) (idx + 1) (idx + 2)
  let b := b.push_triangle (idx + 2) (idx + 3) (idx + 0)
  b.commit none

/-- gfx.rs `DrawBuffer::push_rect_filled`. -/
def DrawBuffer.push_rect_filled (b : DrawBuffer) (rect : Rect) (fill : RectFill) :
    DrawBuffer :=
  let idx := b.vertices.length
  let ct : Rgba8 × Option ℕ :=
    match fill with
    | .Color color => (color, none)
    | .TextureHandle texture_handle => (Rgba8.WHITE, some texture_handle)
  let b := b.push_vertex ⟨rect.top_left, ⟨0, 0⟩, ct.1⟩
  let b := b.push_vertex ⟨rect.top_right, ⟨1, 0⟩, ct.1⟩
  let b := b.push_vertex ⟨rect.bottom_right, ⟨1, 1⟩, ct.1⟩
  let b := b.push_vertex ⟨rect.bottom_left, ⟨0, 1⟩, ct.1⟩
  let b := b.push_triangle (idx + 0) (idx + 1) (idx + 2)
  let b := b.push_triangle (idx + 2) (idx + 3) (idx + 0)
  b.commit ct.2

/-- gfx.rs `DrawBuffer::push_rect_outlined`: four offset `push_line` calls
followed by a final `commit`. -/
def DrawBuffer.push_rect_outlined (b : DrawBuffer) (rect : Rect) (width : ℚ)
    (color : Rgba8) : DrawBuffer :=
  let top_left := rect.min
  let top_right : Vec2 := ⟨rect.max.x, rect.min.y⟩
  let bottom_right := rect.max
  let bottom_left : Vec2 := ⟨rect.min.x, rect.max.y⟩
  let offset := width * (1 / 2)
  let b := b.push_line ⟨top_left.x - width, top_left.y - offset⟩
    ⟨top_right.x + width, top_right.y - offset⟩ width color
  let b := b.push_line ⟨bottom_left.x - width, bottom_left.y + offset⟩
    ⟨bottom_right.x + width, bottom_right.y + offset⟩ width color
  let b := b.push_line ⟨top_right.x + offset, top_right.y⟩
    ⟨bottom_right.x + offset, bottom_right.y⟩ width color
  let b := b.push_line ⟨top_left.x - offset, top_left.y⟩
    ⟨bottom_left.x - offset, bottom_left.y⟩ width color
  b.commit none

/-- gfx.rs `DrawBuffer::push_rect`. -/
def DrawBuffer.push_rect (b : DrawBuffer) (rect : Rect) (fill : Option RectFill)
    (outline_width : Option ℚ) (outline_color : Option Rgba8) : DrawBuffer :=
  let b := match fill with
    | some f => b.push_rect_filled rect f
    | none => b
  match outline_width, outline_color with
  | some width, some color => b.push_rect_outlined rect width color
  | _, _ => b

/-- One call through the public `DrawBuffer` API. -/
inductive DrawOp where
  | line (a c : Vec2) (width : ℚ) (color : Rgba8)
  | rectFilled (rect : Rect) (fill : RectFill)
  | rectOutlined (rect : Rect) (width : ℚ) (color : Rgba8)
  | rect (rect : Rect) (fill : Option RectFill) (outline_width : Option ℚ)
      (outline_color : Option Rgba8)
  | clear
deriving DecidableEq

/-- Applies one public API call; `none` models a panic. -/
def applyDrawOp (b : DrawBuffer) : DrawOp → Option DrawBuffer
  | .line a c width color => some (b.push_line a c width color)
  | .rectFilled rect fill => some (b.push_rect_filled rect fill)
  | .rectOutlined rect width color => some (b.push_rect_outlined rect width color)
  | .rect rect fill ow oc => some (b.push_rect rect fill ow oc)
  | .clear => b.clear

/-- Runs a sequence of public API calls from a given buffer. -/
def runDrawFrom : DrawBuffer → List DrawOp → Option DrawBuffer
  | b, [] => some b
  | b, op :: rest =>
    match applyDrawOp b op with
    | none => none
    | some b' => runDrawFrom b' rest

/-- Runs a sequence of public API calls from the default (empty) buffer. -/
def runDraw (ops : List DrawOp) : Option DrawBuffer :=
  runDrawFrom DrawBuffer.empty ops

/-- The draw commands `cs`, read left to right starting at index offset
`cur`, exactly tile the half-open index range `[cur, len)`: each command
starts where the previous one ended, is non-empty, and the last one ends at
`len`. -/
def chained : ℕ → List DrawCommand → ℕ → Prop
  | cur, [], len => cur = len
  | cur, c :: rest, len =>
    c.start_index = cur ∧ c.start_index < c.end_index ∧ chained c.end_index rest len

/-- Well-formedness of a `DrawBuffer` at rest: no pending indices, and the
draw commands exactly tile the index buffer. -/
def DrawBuffer.wellFormed (b : DrawBuffer) : Prop :=
  b.pending_indices = 0 ∧ chained 0 b.draw_commands b.indices.length

/-- The tiling structure as actually stored: the commands, read left to
right, cover consecutive non-empty ranges of the index buffer ending at
`len`, but each stored `start_index`/`end_index` holds the covered
position wrapped modulo `2 ^ 32` (the `as u32` casts of `commit`). -/
def chainedMod : ℕ → List DrawCommand → ℕ → Prop
  | cur, [], len => cur = len
  | cur, c :: rest, len =>
    c.start_index = cur % 2 ^ 32 ∧
    ∃ e, c.end_index = e % 2 ^ 32 ∧ cur < e ∧ chainedMod e rest len

/-- The invariant every reachable `DrawBuffer` satisfies at rest: no
pending indices, and the stored (wrapped) draw commands arise from an
exact tiling of the index buffer. -/
def DrawBuffer.wfWrap (b : DrawBuffer) : Prop :=
  b.pending_indices = 0 ∧ chainedMod 0 b.draw_commands b.indices.length

/-! ### wayland_screencopy.rs / main.rs: the screencopy capture session -/

/-- `DRM_FORMAT_XRGB8888`, the single fourcc format both dmabuf importers
handle. -/
def DRM_FORMAT_XRGB8888 : ℕ := 0x34325258

/-- gfx.rs `TextureFormat`. -/
inductive TextureFormat where
  | Bgra8Unorm
  | Rgba8Unorm
deriving DecidableEq

/-- `ScreencopyState` (identical in wayland_screencopy.rs and main.rs). -/
inductive ScreencopyState where
  | Pending
  | Ready
  | Failed
deriving DecidableEq

/-- `ScreencopyDmabufDescriptor` (identical in both files); equality is the
derived componentwise `PartialEq`. -/
structure ScreencopyDmabufDescriptor where
  format : ℕ
  width : ℕ
  height : ℕ
deriving DecidableEq

/-- Results of the platform calls made inside `ScreencopyDmabuf::new`. Each
field records the outcome of one checked FFI call of the source, in call
order, plus the values those calls write through their out parameters, and
the availability of the `zwp_linux_dmabuf_v1` global. -/
structure DmabufEnv where
  /-- `egl::ImageKhr::new` succeeds. -/
  image_ok : Bool
  /-- `ExportDMABUFImageQueryMESA` returns `EGL_TRUE`. -/
  query_ok : Bool
  /-- out parameter of the query call (`c_int`). -/
  num_planes : ℤ
  /-- out parameter of the query call (`EGLuint64KHR`, a `u64`). -/
  modifiers : ℕ
  /-- `ExportDMABUFImageMESA` returns `EGL_TRUE`. -/
  export_ok : Bool
  /-- out parameter of the export call (`c_int`). -/
  fd : ℤ
  /-- out parameter of the export call (`EGLint`). -/
  stride : ℤ
  /-- out parameter of the export call (`EGLint`). -/
  offset : ℤ
  /-- value `egl.unwrap_err()` would report for a failing call. -/
  egl_err_code : ℕ
  /-- the `zwp_linux_dmabuf_v1` global was advertised. -/
  linux_dmabuf_available : Bool
  /-- `zwp_linux_dmabuf_v1_create_params` returns non-null. -/
  params_ok : Bool
  /-- `zwp_linux_buffer_params_v1_create_immed` returns non-null. -/
  create_immed_ok : Bool
deriving DecidableEq

/-- Result of an operation of the embedded program: a value, a structured
error (an `anyhow::Error`, message plus optionally the raw platform code it
carries), or a process abort (`fatal` models a Rust panic). -/
inductive Outcome (α : Type) where
  | ok (val : α)
  | err (msg : String) (code : Option ℕ)
  | fatal (msg : String)
deriving DecidableEq

/-- Model of the Rust `i32`-to-`u32` cast (`as u32`), which wraps. -/
def castU32 (i : ℤ) : ℕ := (i % 2 ^ 32).toNat

/-- The imported texture bundle `ScreencopyDmabuf`. Instead of opaque GPU
handles the model records, for each of the three objects created, exactly
the arguments the source passes when creating it: the GL texture allocation
(width, height, mapped format), the `zwp_linux_buffer_params_v1_add`
request arguments in call order (fd, plane index, offset, stride, modifier
high 32 bits, modifier low 32 bits), and the
`zwp_linux_buffer_params_v1_create_immed` request arguments (width, height,
fourcc format, flags). -/
structure ScreencopyDmabuf where
  tex_width : ℕ
  tex_height : ℕ
  tex_format : TextureFormat
  add_args : ℤ × ℕ × ℕ × ℕ × ℕ × ℕ
  create_immed_args : ℕ × ℕ × ℕ × ℕ
deriving DecidableEq

/-- `ScreencopyDmabuf::new` (wayland_screencopy.rs lines 33 to 121; the
main.rs copy at lines 80 to 165 performs the same sequence). The checks
appear in source order: the fourcc `match` inside the `gl::Texture2D::new`
argument list (`unimplemented!` on any format other than XRGB8888), the
`ImageKhr` creation, the export query, `assert!(num_planes == 1)`, the
export, the `linux_dmabuf` global lookup, params creation, the `add`
request, and `create_immed`. -/
def ScreencopyDmabuf.new (env : DmabufEnv) (descriptor : ScreencopyDmabufDescriptor) :
    Outcome ScreencopyDmabuf :=
  if descriptor.format ≠ DRM_FORMAT_XRGB8888 then
    .fatal "unhandled fourcc format"
  else if env.image_ok = false then
    .err "could not create egl khr image" (some env.egl_err_code)
  else if env.query_ok = false then
    .err "could not retrieve pixel format" (some env.egl_err_code)
  else if env.num_planes ≠ 1 then
    .fatal "assertion failed: num_planes == 1"
  else if env.export_ok = false then
    .err "could not retrieve dmabuf fd" (some env.egl_err_code)
  else if env.linux_dmabuf_available = false then
    .err "linux dmabuf is not available" none
  else if env.params_ok = false then
    .err "could not create linux dmabuf params" none
  else if env.create_immed_ok = false then
    .err "could not create linux dmabuf buffer" none
  else
    .ok
      { tex_width := descriptor.width
        tex_height := descriptor.height
        tex_format := .Bgra8Unorm
        add_args :=
          (env.fd, 0, castU32 env.offset, castU32 env.stride,
            env.modifiers / 2 ^ 32, env.modifiers % 2 ^ 32)
        create_immed_args := (descriptor.width, descriptor.height, descriptor.format, 0) }

/-- The per-output capture session `Screencopy` (state-carrying fields;
identical in wayland_screencopy.rs and main.rs). -/
structure Screencopy where
  state : ScreencopyState
  dmabuf_desc : Option ScreencopyDmabufDescriptor
  dmabuf : Option ScreencopyDmabuf
deriving DecidableEq

/-- The session as `Screencopy::new_boxed` / `App::capture_all_screens`
creates it: `Pending`, no descriptor, no imported bundle. -/
def Screencopy.init : Screencopy := ⟨.Pending, none, none⟩

/-- wayland_screencopy.rs `handle_ready`: unconditionally sets `Ready`. -/
def handle_ready (s : Screencopy) : Screencopy := { s with state := .Ready }

/-- wayland_screencopy.rs `handle_failed`: unconditionally sets `Failed`. -/
def handle_failed (s : Screencopy) : Screencopy := { s with state := .Failed }

/-- wayland_screencopy.rs `handle_linux_dmabuf`: on a descriptor equal to
the stored one (`is_some_and(prev.eq(next))`, equivalently
`dmabuf_desc == Some(next)`) it returns early; otherwise it stores the new
descriptor and drops the imported bundle (`dmabuf.take()`). -/
def handle_linux_dmabuf (s : Screencopy) (format width height : ℕ) : Screencopy :=
  let next_desc : ScreencopyDmabufDescriptor := ⟨format, width, height⟩
  if s.dmabuf_desc = some next_desc then s
  else { s with dmabuf_desc := some next_desc, dmabuf := none }

/-- wayland_screencopy.rs `handle_buffer_done`:
`dmabuf.get_or_insert_with(..)` builds the bundle only when absent, from
the stored descriptor (`unwrap` panics when no descriptor event arrived)
and panics via `expect` when `ScreencopyDmabuf::new` fails; it then issues
the `copy` request. `none` models the panics. -/
def handle_buffer_done (s : Screencopy) (env : DmabufEnv) : Option Screencopy :=
  match s.dmabuf with
  | some _ => some s
  | none =>
    match s.dmabuf_desc with
    | none => none
    | some desc =>
      match ScreencopyDmabuf.new env desc with
      | .ok d => some { s with dmabuf := some d }
      | .err _ _ => none
      | .fatal _ => none

/-- One `zwlr_screencopy_frame_v1` event, as consumed by the
wayland_screencopy.rs listener. `other` covers the `buffer`, `flags` and
`damage` events, which are wired to `noop_listener!`. -/
inductive FrameEvent where
  | ready
  | failed
  | linux_dmabuf (format width height : ℕ)
  | buffer_done (env : DmabufEnv)
  | other
deriving DecidableEq

/-- Dispatch of one frame event to the wayland_screencopy.rs listener. -/
def Screencopy.step (s : Screencopy) : FrameEvent → Option Screencopy
  | .ready => some (handle_ready s)
  | .failed => some (handle_failed s)
  | .linux_dmabuf format width height => some (handle_linux_dmabuf s format width height)
  | .buffer_done env => handle_buffer_done s env
  | .other => some s

/-- Runs a list of frame events against a session. -/
def Screencopy.runFrom : Screencopy → List FrameEvent → Option Screencopy
  | s, [] => some s
  | s, e :: rest =>
    match s.step e with
    | none => none
    | some s' => Screencopy.runFrom s' rest

/-- Runs a list of frame events against a fresh session, as created by
`Screencopy::capture`. -/
def Screencopy.run (events : List FrameEvent) : Option Screencopy :=
  Screencopy.runFrom Screencopy.init events

/-- One `zwlr_screencopy_frame_v1` event as consumed by the main.rs
`Dispatch<ZwlrScreencopyFrameV1, usize>` arm. There the dmabuf bundle is
built inside the `LinuxDmabuf` arm, so the platform-call environment
travels with that event; `other` covers the arms matched by `_ => {}`. -/
inductive MainFrameEvent where
  | linux_dmabuf (format width height : ℕ) (env : DmabufEnv)
  | buffer_done
  | ready
  | failed
  | other
deriving DecidableEq

/-- main.rs `Dispatch<ZwlrScreencopyFrameV1, usize>::event` (lines 754 to
809), acting on one session. In the `LinuxDmabuf` arm a differing
descriptor immediately replaces both the stored descriptor and the
imported bundle (`expect` panics on creation failure); the `BufferDone` arm
only issues `copy` on the already-built bundle (`unwrap` panics when it is
absent); `Ready` and `Failed` set the state unconditionally. -/
def mainFrameStep (s : Screencopy) : MainFrameEvent → Option Screencopy
  | .linux_dmabuf format width height env =>
    let next_dmabuf_desc : ScreencopyDmabufDescriptor := ⟨format, width, height⟩
    if s.dmabuf_desc = some next_dmabuf_desc then some s
    else
      match ScreencopyDmabuf.new env next_dmabuf_desc with
      | .ok d => some { s with dmabuf_desc := some next_dmabuf_desc, dmabuf := some d }
      | .err _ _ => none
      | .fatal _ => none
  | .buffer_done => if s.dmabuf.isSome then some s else none
  | .ready => some { s with state := .Ready }
  | .failed => some { s with state := .Failed }
  | .other => some s

/-! ### main.rs: App::capture_all_screens -/

/-- The scan over `self.screens` performed at the top of the polling loop in
`App::capture_all_screens` (lines 372 to 383): per screen, in order, return
`Err(anyhow!("screencopy failed"))` at the first `Failed` session, count
`Pending` sessions otherwise; a screen without a session hits
`unreachable!()`. `fatal` models that panic. -/
def checkScreens : List (Option Screencopy) → Outcome ℕ
  | [] => .ok 0
  | none :: _ => .fatal "unreachable"
  | some s :: rest =>
    if s.state = .Failed then .err "screencopy failed" none
    else
      match checkScreens rest with
      | .ok pending => .ok (pending + if s.state = .Pending then 1 else 0)
      | .err m c => .err m c
      | .fatal m => .fatal m

/-- One event delivered to screen `idx` during a dispatch: the indexing
`self.screens[idx]`, the `.take()` with its `unreachable!()`, the event arm,
and the write-back. `none` models the panics. -/
def applyMainEvent (screens : List (Option Screencopy)) (idx : ℕ) (ev : MainFrameEvent) :
    Option (List (Option Screencopy)) :=
  match screens.get? idx with
  | none => none
  | some none => none
  | some (some sc) =>
    match mainFrameStep sc ev with
    | none => none
    | some sc' => some (screens.set idx (some sc'))

/-- One message batch processed by `event_queue.blocking_dispatch`: the
queued frame events, each addressed to a screen index, handled inline in
order. -/
def dispatchBatch : List (Option Screencopy) → List (ℕ × MainFrameEvent) →
    Option (List (Option Screencopy))
  | screens, [] => some screens
  | screens, (idx, ev) :: rest =>
    match applyMainEvent screens idx ev with
    | none => none
    | some screens' => dispatchBatch screens' rest

/-- Zero or more dispatched batches in sequence. -/
def dispatchMany : List (List (ℕ × MainFrameEvent)) → List (Option Screencopy) →
    Option (List (Option Screencopy))
  | [], screens => some screens
  | batch :: rest, screens =>
    match dispatchBatch screens batch with
    | none => none
    | some screens' => dispatchMany rest screens'

/-- The polling loop of `App::capture_all_screens`: scan the sessions,
return the error at a `Failed` session, finish once no session is
`Pending`, otherwise block in dispatch for the next batch. The scripted
batch list stands for the messages the compositor will deliver; when it is
exhausted while sessions are still `Pending`, `blocking_dispatch` never
returns, modelled as `none`. -/
def captureLoop : List (List (ℕ × MainFrameEvent)) → List (Option Screencopy) →
    Option (Outcome Unit × List (Option Screencopy))
  | [], screens =>
    match checkScreens screens with
    | .err m c => some (.err m c, screens)
    | .fatal _ => none
    | .ok 0 => some (.ok (), screens)
    | .ok (_ + 1) => none
  | batch :: rest, screens =>
    match checkScreens screens with
    | .err m c => some (.err m c, screens)
    | .fatal _ => none
    | .ok 0 => some (.ok (), screens)
    | .ok (_ + 1) =>
      match dispatchBatch screens batch with
      | none => none
      | some screens' => captureLoop rest screens'

/-- main.rs `App::capture_all_screens` (lines 353 to 389): fail when the
screencopy manager global is unavailable; otherwise arm every screen with a
fresh `Pending` session (`assert!(screen.screencopy.is_none())` panics when
a session already exists) and run the polling loop against the scripted
batches. -/
def capture_all_screens (manager_available : Bool) (screens : List (Option Screencopy))
    (batches : List (List (ℕ × MainFrameEvent))) :
    Option (Outcome Unit × List (Option Screencopy)) :=
  if manager_available = false then
    some (.err "screencopy manager is unavail" none, screens)
  else if screens.any (fun s => s.isSome) then none
  else captureLoop batches (screens.map fun _ => some Screencopy.init)

/-! ### wayland_screencopy.rs: Screencopy::capture -/

/-- wayland_screencopy.rs `Screencopy::capture`: fails synchronously when
the screencopy manager global is unavailable, otherwise issues the
capture-output request (cursor included) and registers the listener. -/
def Screencopy.capture (screencopy_manager_available : Bool) : Outcome Unit :=
  if screencopy_manager_available = false then
    .err "screencopy manager is not available" none
  else .ok ()

/-! ### wayland_overlay.rs: the Overlay configuration machine -/

/-- wayland_overlay.rs `Overlay` (state-carrying fields). The opaque
`wl_egl_window` pointer and the EGL `WindowSurface` are modelled by
identity tags: `creations` counts `wl_egl_window_create` calls over the
lifetime, and each created window/window-surface pair carries the value of
the counter at its creation, so object identity is re-creation count.
`viewport_dest` records the last `wp_viewport_set_destination` arguments. -/
structure Overlay where
  fractional_scale : Option ℚ
  logical_size : Option Size
  acked_first_configure : Bool
  window : Option ℕ
  window_surface : Option ℕ
  creations : ℕ
  viewport_dest : Option Size
deriving DecidableEq

/-- The `Overlay` as `Overlay::new_boxed` initializes it. -/
def Overlay.init : Overlay := ⟨none, none, false, none, none, 0, none⟩

/-- wayland_overlay.rs `Overlay::configure` (lines 241 to 304): merge
whichever argument is present; return early before the first acked
configure; require a logical size (the `context("logical size is
missing?")?` error is escalated to a panic by the `expect` in both
callers, modelled as `none`); create the window and window surface only
when no window exists yet (`assert!(window_surface.is_none())`); always
reposition the viewport to the logical size and commit. Window and
window-surface creation failures abort the process through the same
`expect` and leave no observable state, so the model lets creation
succeed. -/
def Overlay.configure (o : Overlay) (fractional_scale : Option ℚ)
    (logical_size : Option Size) : Option Overlay :=
  let o := if fractional_scale.isSome then { o with fractional_scale := fractional_scale } else o
  let o := if logical_size.isSome then { o with logical_size := logical_size } else o
  if o.acked_first_configure = false then some o
  else
    match o.logical_size with
    | none => none
    | some ls =>
      match o.window with
      | none =>
        if o.window_surface.isSome then none
        else
          some { o with
            window := some o.creations
            window_surface := some o.creations
            creations := o.creations + 1
            viewport_dest := some ls }
      | some _ => some { o with viewport_dest := some ls }

/-- One event delivered to an `Overlay`: the `preferred_scale` event of
`wp_fractional_scale_v1` (numerator of a fraction with denominator 120),
the `configure` event of `zwlr_layer_surface_v1` (acked immediately, serial
otherwise unused), or its `closed` event (`unimplemented!()`). -/
inductive OverlayEvent where
  | preferred_scale (scale : ℕ)
  | layer_configure (serial width height : ℕ)
  | closed
deriving DecidableEq

/-- Dispatch of one overlay event: `handle_preferred_scale` calls
`configure(Some(scale / 120), None)`, `handle_configure` sets
`acked_first_configure` then calls `configure(None, Some(size))`,
`handle_closed` panics. -/
def Overlay.step (o : Overlay) : OverlayEvent → Option Overlay
  | .preferred_scale scale => o.configure (some ((scale : ℚ) / 120)) none
  | .layer_configure _serial width height =>
    Overlay.configure { o with acked_first_configure := true } none (some ⟨width, height⟩)
  | .closed => none

/-- Runs a list of overlay events against an overlay. -/
def Overlay.runFrom : Overlay → List OverlayEvent → Option Overlay
  | o, [] => some o
  | o, e :: rest =>
    match o.step e with
    | none => none
    | some o' => Overlay.runFrom o' rest

/-- Runs a list of overlay events against a freshly created overlay. -/
def Overlay.run (events : List OverlayEvent) : Option Overlay :=
  Overlay.runFrom Overlay.init events

/-! ### Concrete sample values used by witnesses and counterexamples -/

/-- A platform environment in which every checked call succeeds and the
export reports one plane, fd 3, stride 2560, offset 0, modifier 0. -/
def envOk : DmabufEnv :=
  { image_ok := true
    query_ok := true
    num_planes := 1
    modifiers := 0
    export_ok := true
    fd := 3
    stride := 2560
    offset := 0
    egl_err_code := 0
    linux_dmabuf_available := true
    params_ok := true
    create_immed_ok := true }

/-- `envOk` with the export query reporting two planes. -/
def envTwoPlanes : DmabufEnv := { envOk with num_planes := 2 }

/-- A 640 by 480 XRGB8888 descriptor. -/
def descOk : ScreencopyDmabufDescriptor := ⟨DRM_FORMAT_XRGB8888, 640, 480⟩

/-- A descriptor with a fourcc format the importer does not handle. -/
def descBadFormat : ScreencopyDmabufDescriptor := ⟨0, 640, 480⟩

/-- An all-zero `ScreencopyDmabuf`, used only as the `getD` default when a
witness extracts the bundle a concrete run is known to produce. -/
def dmabufDefault : ScreencopyDmabuf := ⟨0, 0, .Bgra8Unorm, (0, 0, 0, 0, 0, 0), (0, 0, 0, 0)⟩

/-- A frame-event sequence of the normal capture flow: one descriptor
event, then buffer negotiation completes. -/
def sampleFrameEvents : List FrameEvent :=
  [.linux_dmabuf DRM_FORMAT_XRGB8888 640 480, .buffer_done envOk]

/-- The session the sample flow produces. -/
def sampleSession : Screencopy := (Screencopy.run sampleFrameEvents).getD Screencopy.init

/-- The imported bundle the sample flow produces. -/
def sampleDmabuf : ScreencopyDmabuf := sampleSession.dmabuf.getD dmabufDefault

/-- The invariant tying an imported bundle to the stored descriptor: when a
session holds a bundle, the stored descriptor is exactly the
(XRGB8888, width, height) triple the GL texture was allocated with, the GL
format is the mapped `Bgra8Unorm`, and the protocol buffer was registered
with the same triple (plus zero flags). -/
def descInv (s : Screencopy) : Prop :=
  ∀ d, s.dmabuf = some d →
    s.dmabuf_desc = some ⟨DRM_FORMAT_XRGB8888, d.tex_width, d.tex_height⟩ ∧
    d.tex_format = .Bgra8Unorm ∧
    d.create_immed_args = (d.tex_width, d.tex_height, DRM_FORMAT_XRGB8888, 0)

/-- A small sequence of public `DrawBuffer` API calls. -/
def sampleDrawOps : List DrawOp :=
  [.rectFilled ⟨⟨0, 0⟩, ⟨8, 4⟩⟩ (.Color Rgba8.WHITE), .clear,
    .line ⟨0, 0⟩ ⟨8, 0⟩ 2 Rgba8.WHITE, .rectOutlined ⟨⟨0, 0⟩, ⟨8, 4⟩⟩ 2 Rgba8.WHITE]

/-- 715827883 `push_line` calls: each call appends 6 indices, and this is
the smallest count whose index buffer (6 * 715827883 = 4294967298 entries)
crosses the `u32` boundary `2 ^ 32 = 4294967296`. -/
def bigOps : List DrawOp :=
  List.replicate 715827883 (.line ⟨0, 0⟩ ⟨8, 0⟩ 2 Rgba8.WHITE)

/-- The buffer state the boundary-crossing run produces. -/
def bigBuffer : DrawBuffer := (runDraw bigOps).getD DrawBuffer.empty

/-- The invariant maintained by every reachable `Overlay` state: the window
surface is created at most once (`creations ≤ 1`), window and window
surface exist together and always carry identity tag 0, a missing window
means no creation ever happened, an existing window surface implies the
gate `acked_first_configure && logical_size.is_some()` held, and once the
first configure is acked the window exists and a logical size is known. -/
def overlayInv (o : Overlay) : Prop :=
  o.creations ≤ 1 ∧
  o.window_surface.isSome = o.window.isSome ∧
  (∀ i, o.window = some i → i = 0 ∧ o.window_surface = some 0 ∧ o.creations = 1) ∧
  (o.window = none → o.creations = 0) ∧
  (o.window_surface.isSome = true →
    o.acked_first_configure = true ∧ o.logical_size.isSome = true) ∧
  (o.acked_first_configure = true →
    o.window.isSome = true ∧ o.logical_size.isSome = true)

/-- An overlay event sequence: a preferred scale of 144/120, then the first
acked configure at 1920 by 1080, then a scale-only update back to 1. -/
def sampleOverlayEvents : List OverlayEvent :=
  [.preferred_scale 144, .layer_configure 7 1920 1080, .preferred_scale 120]

/-- The overlay state the sample event sequence produces. -/
def sampleOverlay : Overlay := (Overlay.run sampleOverlayEvents).getD Overlay.init

/-! ## DrawBuffer bookkeeping lemmas -/

theorem commit_of_pending_zero (b : DrawBuffer) (t : Option ℕ)
    (h : b.pending_indices = 0) : b.commit t = b := by
  simp [DrawBuffer.commit, h]

theorem push_line_shape (b : DrawBuffer) (a c : Vec2) (w : ℚ) (col : Rgba8) :
    (b.push_line a c w col).pending_indices = 0 ∧
    (b.push_line a c w col).indices.length = b.indices.length + 6 ∧
    (b.push_line a c w col).draw_commands =
      b.draw_commands ++
        [⟨(b.indices.length - b.pending_indices) % 2 ^ 32,
          (b.indices.length + 6) % 2 ^ 32, none⟩] := by
  simp [DrawBuffer.push_line, DrawBuffer.push_vertex, DrawBuffer.push_triangle,
    DrawBuffer.commit, DrawCommand.mk.injEq] <;> omega

theorem push_rect_filled_shape (b : DrawBuffer) (r : Rect) (f : RectFill) :
    (b.push_rect_filled r f).pending_indices = 0 ∧
    (b.push_rect_filled r f).indices.length = b.indices.length + 6 ∧
    ∃ t, (b.push_rect_filled r f).draw_commands =
      b.draw_commands ++
        [⟨(b.indices.length - b.pending_indices) % 2 ^ 32,
          (b.indices.length + 6) % 2 ^ 32, t⟩] := by
  cases f <;>
    (simp [DrawBuffer.push_rect_filled, DrawBuffer.push_vertex, DrawBuffer.push_triangle,
      DrawBuffer.commit, DrawCommand.mk.injEq] <;> omega)

theorem push_line_commands_len (b : DrawBuffer) (a c : Vec2) (w : ℚ) (col : Rgba8) :
    (b.push_line a c w col).draw_commands.length = b.draw_commands.length + 1 := by
  rw [(push_line_shape b a c w col).2.2]
  simp

theorem push_rect_outlined_shape (b : DrawBuffer) (r : Rect) (w : ℚ) (col : Rgba8) :
    (b.push_rect_outlined r w col).pending_indices = 0 ∧
    (b.push_rect_outlined r w col).draw_commands.length = b.draw_commands.length + 4 := by
  simp only [DrawBuffer.push_rect_outlined]
  rw [commit_of_pending_zero _ _ (push_line_shape _ _ _ _ _).1]
  refine ⟨(push_line_shape _ _ _ _ _).1, ?_⟩
  simp [push_line_commands_len]

theorem chainedMod_le (cs : List DrawCommand) (cur len : ℕ)
    (h : chainedMod cur cs len) : cur ≤ len := by
  induction cs generalizing cur with
  | nil => exact le_of_eq h
  | cons c rest ih =>
    obtain ⟨-, e, -, h3, h4⟩ := h
    exact le_trans (le_of_lt h3) (ih e h4)

theorem chainedMod_append (cs : List DrawCommand) (cur len len' : ℕ) (t : Option ℕ)
    (h : chainedMod cur cs len) (hlt : len < len') :
    chainedMod cur (cs ++ [⟨len % 2 ^ 32, len' % 2 ^ 32, t⟩]) len' := by
  induction cs generalizing cur with
  | nil =>
    simp only [chainedMod] at h
    subst h
    exact ⟨rfl, len', rfl, hlt, rfl⟩
  | cons c rest ih =>
    obtain ⟨h1, e, h2, h3, h4⟩ := h
    exact ⟨h1, e, h2, h3, ih _ h4⟩

theorem chainedMod_to_chained (cs : List DrawCommand) (cur len : ℕ)
    (h : chainedMod cur cs len) (hlen : len < 2 ^ 32) : chained cur cs len := by
  induction cs generalizing cur with
  | nil => exact h
  | cons c rest ih =>
    obtain ⟨h1, e, h2, h3, h4⟩ := h
    have he : e ≤ len := chainedMod_le rest e len h4
    have hcur : cur < 2 ^ 32 := by omega
    have he2 : e < 2 ^ 32 := by omega
    refine ⟨?_, ?_, ?_⟩
    · rw [h1, Nat.mod_eq_of_lt hcur]
    · rw [h1, h2, Nat.mod_eq_of_lt hcur, Nat.mod_eq_of_lt he2]
      exact h3
    · rw [h2, Nat.mod_eq_of_lt he2]
      exact ih e h4

theorem wf_push_line (b : DrawBuffer) (a c : Vec2) (w : ℚ) (col : Rgba8)
    (h : b.wfWrap) : (b.push_line a c w col).wfWrap := by
  obtain ⟨hp, hc⟩ := h
  obtain ⟨s1, s2, s3⟩ := push_line_shape b a c w col
  refine ⟨s1, ?_⟩
  rw [s2, s3, hp, Nat.sub_zero]
  exact chainedMod_append _ _ _ _ _ hc (by omega)

theorem wf_push_rect_filled (b : DrawBuffer) (r : Rect) (f : RectFill)
    (h : b.wfWrap) : (b.push_rect_filled r f).wfWrap := by
  obtain ⟨hp, hc⟩ := h
  obtain ⟨s1, s2, t, s3⟩ := push_rect_filled_shape b r f
  refine ⟨s1, ?_⟩
  rw [s2, s3, hp, Nat.sub_zero]
  exact chainedMod_append _ _ _ _ _ hc (by omega)

theorem wf_push_rect_outlined (b : DrawBuffer) (r : Rect) (w : ℚ) (col : Rgba8)
    (h : b.wfWrap) : (b.push_rect_outlined r w col).wfWrap := by
  simp only [DrawBuffer.push_rect_outlined]
  rw [commit_of_pending_zero _ _ (push_line_shape _ _ _ _ _).1]
  exact wf_push_line _ _ _ _ _ (wf_push_line _ _ _ _ _ (wf_push_line _ _ _ _ _
    (wf_push_line _ _ _ _ _ h)))

theorem wf_push_rect (b : DrawBuffer) (r : Rect) (f : Option RectFill)
    (ow : Option ℚ) (oc : Option Rgba8) (h : b.wfWrap) :
    (b.push_rect r f ow oc).wfWrap := by
  unfold DrawBuffer.push_rect
  have h1 : (match f with
      | some fl => b.push_rect_filled r fl
      | none => b).wfWrap := by
    cases f with
    | none => exact h
    | some fl => exact wf_push_rect_filled b r fl h
  cases ow with
  | none => cases oc <;> exact h1
  | some w => cases oc with
    | none => exact h1
    | some col => exact wf_push_rect_outlined _ r w col h1

theorem wf_clear (b b' : DrawBuffer) (h : b.wfWrap) (hc : b.clear = some b') :
    b'.wfWrap := by
  unfold DrawBuffer.clear at hc
  rw [if_pos h.1] at hc
  cases hc
  exact ⟨h.1, rfl⟩

theorem wf_applyDrawOp (b b' : DrawBuffer) (op : DrawOp) (h : b.wfWrap)
    (ha : applyDrawOp b op = some b') : b'.wfWrap := by
  cases op with
  | line a c w col => cases ha; exact wf_push_line b a c w col h
  | rectFilled r f => cases ha; exact wf_push_rect_filled b r f h
  | rectOutlined r w col => cases ha; exact wf_push_rect_outlined b r w col h
  | rect r f ow oc => cases ha; exact wf_push_rect b r f ow oc h
  | clear => exact wf_clear b b' h ha

theorem wf_runDrawFrom (ops : List DrawOp) (b b' : DrawBuffer) (h : b.wfWrap)
    (hr : runDrawFrom b ops = some b') : b'.wfWrap := by
  induction ops generalizing b with
  | nil => cases hr; exact h
  | cons op rest ih =>
    unfold runDrawFrom at hr
    cases hop : applyDrawOp b op with
    | none => rw [hop] at hr; cases hr
    | some b1 =>
      rw [hop] at hr
      exact ih b1 (wf_applyDrawOp b b1 op h hop) hr

theorem runFrom_replicate_line (a c : Vec2) (w : ℚ) (col : Rgba8) (n : ℕ)
    (b : DrawBuffer) (hb : b.pending_indices = 0) :
    ∃ b', runDrawFrom b (List.replicate n (.line a c w col)) = some b' ∧
      b'.pending_indices = 0 ∧
      b'.indices.length = b.indices.length + 6 * n ∧
      (0 < n → b'.draw_commands.getLast? =
        some ⟨(b.indices.length + 6 * (n - 1)) % 2 ^ 32,
          (b.indices.length + 6 * n) % 2 ^ 32, none⟩) := by
  induction n generalizing b with
  | zero =>
    refine ⟨b, rfl, hb, by omega, ?_⟩
    intro h0
    exact absurd h0 (by omega)
  | succ m ih =>
    obtain ⟨s1, s2, s3⟩ := push_line_shape b a c w col
    obtain ⟨b', hrun, hp, hlen, hlast⟩ := ih (b.push_line a c w col) s1
    refine ⟨b', ?_, hp, ?_, ?_⟩
    · simp only [List.replicate_succ, runDrawFrom, applyDrawOp]
      exact hrun
    · rw [hlen, s2]
      omega
    · intro _
      cases m with
      | zero =>
        have hb' : b.push_line a c w col = b' := by
          simp only [List.replicate, runDrawFrom, Option.some.injEq] at hrun
          exact hrun
        rw [← hb', s3, List.getLast?_concat, hb, Nat.sub_zero]
        norm_num
      | succ k =>
        rw [hlast (Nat.succ_pos k), s2]
        have e1 : b.indices.length + 6 + 6 * (k + 1 - 1) =
            b.indices.length + 6 * (k + 1 + 1 - 1) := by omega
        have e2 : b.indices.length + 6 + 6 * (k + 1) =
            b.indices.length + 6 * (k + 1 + 1) := by omega
        rw [e1, e2]

/-! ## C3 -/

/-- C3 counterexample: at the explicit input below, a single
`push_rect_outlined` call on an empty buffer closes four draw commands, not
exactly one, refuting the claim that every one of `push_rect_filled`,
`push_rect_outlined` and `push_line` grows `draw_commands.len()` by exactly
1 per call. -/
theorem c3_counterexample :
    (DrawBuffer.empty.push_rect_outlined ⟨⟨0, 0⟩, ⟨8, 4⟩⟩ 2 Rgba8.WHITE).draw_commands.length
        = 4 ∧
    ¬((DrawBuffer.empty.push_rect_outlined ⟨⟨0, 0⟩, ⟨8, 4⟩⟩ 2
        Rgba8.WHITE).draw_commands.length = DrawBuffer.empty.draw_commands.length + 1) := by
  have h := (push_rect_outlined_shape DrawBuffer.empty ⟨⟨0, 0⟩, ⟨8, 4⟩⟩ 2 Rgba8.WHITE).2
  have he : DrawBuffer.empty.draw_commands.length = 0 := rfl
  omega

/-- C3 (amended): from every starting `DrawBuffer` state, `push_line` and
`push_rect_filled` each close exactly one new draw command, while
`push_rect_outlined` closes exactly four (one per edge line; its trailing
`commit` call is a no-op because each `push_line` already committed). -/
theorem c3_commands_per_push (b : DrawBuffer) (a c : Vec2) (w : ℚ) (col : Rgba8)
    (r : Rect) (f : RectFill) :
    (b.push_line a c w col).draw_commands.length = b.draw_commands.length + 1 ∧
    (b.push_rect_filled r f).draw_commands.length = b.draw_commands.length + 1 ∧
    (b.push_rect_outlined r w col).draw_commands.length = b.draw_commands.length + 4 := by
  refine ⟨push_line_commands_len b a c w col, ?_, (push_rect_outlined_shape b r w col).2⟩
  obtain ⟨-, -, t, s3⟩ := push_rect_filled_shape b r f
  rw [s3]
  simp

/-! ## C10 -/

/-- C10 counterexample: at the explicit input `bigOps` — 715827883
`push_line` calls, whose index buffer holds 6 * 715827883 = 4294967298
entries — the run succeeds, but the last draw command straddles the
`2 ^ 32` boundary: its stored `u32` values are `start_index = 4294967292`
and `end_index = 4294967298 mod 2 ^ 32 = 2`, so `start_index < end_index`
fails and the last `end_index` does not equal `indices.len()`. This
refutes the claimed tiling for unboundedly long runs: the `as u32` casts
in `commit` wrap. -/
theorem c10_counterexample :
    (runDraw bigOps).isSome = true ∧
    bigBuffer.indices.length = 4294967298 ∧
    bigBuffer.draw_commands.getLast? = some ⟨4294967292, 2, none⟩ ∧
    ¬(4294967292 < 2) ∧ (2 : ℕ) ≠ 4294967298 := by
  obtain ⟨b', hrun, hp, hlen, hlast⟩ :=
    runFrom_replicate_line ⟨0, 0⟩ ⟨8, 0⟩ 2 Rgba8.WHITE 715827883 DrawBuffer.empty rfl
  have hruns : runDraw bigOps = some b' := hrun
  have hbb : bigBuffer = b' := by
    unfold bigBuffer
    rw [hruns]
    rfl
  have hempty : DrawBuffer.empty.indices.length = 0 := rfl
  refine ⟨?_, ?_, ?_, by norm_num, by norm_num⟩
  · rw [hruns]
    rfl
  · rw [hbb, hlen, hempty]
  · rw [hbb, hlast (by norm_num), hempty]
    norm_num

/-- C10 (amended): every `DrawBuffer` state reachable through the public
API (`push_line`, `push_rect_filled`, `push_rect_outlined`, `push_rect`,
`clear`) has no pending indices, `commit` with zero pending indices is a
no-op, and `clear` does not panic; and whenever the index buffer holds
fewer than `2 ^ 32` entries — so the `as u32` casts in `commit` are
value-preserving — the draw commands exactly tile the index buffer (first
command starts at 0, each command is non-empty and starts where the
previous one ended, the last one ends at `indices.len()`). -/
theorem c10_draw_commands_tile_indices (ops : List DrawOp) (b : DrawBuffer)
    (h : runDraw ops = some b) :
    b.pending_indices = 0 ∧ (∀ t, b.commit t = b) ∧ b.clear.isSome = true ∧
    (b.indices.length < 2 ^ 32 → b.wellFormed) := by
  have hwf : b.wfWrap :=
    wf_runDrawFrom ops DrawBuffer.empty b ⟨rfl, rfl⟩ h
  refine ⟨hwf.1, fun t => commit_of_pending_zero b t hwf.1, ?_, ?_⟩
  · unfold DrawBuffer.clear
    rw [if_pos hwf.1]
    rfl
  · intro hlen
    exact ⟨hwf.1, chainedMod_to_chained _ _ _ hwf.2 hlen⟩

/-- C10 witness: the reachability hypothesis discharged at a concrete
sequence of API calls; its buffer has 30 indices, well under `2 ^ 32`, so
the tiling conclusion applies to it. -/
theorem c10_witness :
    ((runDraw sampleDrawOps).getD DrawBuffer.empty).pending_indices = 0 ∧
    (∀ t, ((runDraw sampleDrawOps).getD DrawBuffer.empty).commit t =
      (runDraw sampleDrawOps).getD DrawBuffer.empty) ∧
    ((runDraw sampleDrawOps).getD DrawBuffer.empty).clear.isSome = true ∧
    (((runDraw sampleDrawOps).getD DrawBuffer.empty).indices.length < 2 ^ 32 →
      ((runDraw sampleDrawOps).getD DrawBuffer.empty).wellFormed) :=
  c10_draw_commands_tile_indices sampleDrawOps _ rfl

/-! ## Screencopy session lemmas -/

theorem dmabuf_new_ok (env : DmabufEnv) (desc : ScreencopyDmabufDescriptor)
    (d : ScreencopyDmabuf) (h : ScreencopyDmabuf.new env desc = .ok d) :
    desc.format = DRM_FORMAT_XRGB8888 ∧ d.tex_width = desc.width ∧
    d.tex_height = desc.height ∧ d.tex_format = .Bgra8Unorm ∧
    d.add_args =
      (env.fd, 0, castU32 env.offset, castU32 env.stride,
        env.modifiers / 2 ^ 32, env.modifiers % 2 ^ 32) ∧
    d.create_immed_args = (desc.width, desc.height, desc.format, 0) := by
  unfold ScreencopyDmabuf.new at h
  split_ifs at h with h1 h2 h3 h4 h5 h6 h7 h8 <;> cases h
  have hf : desc.format = DRM_FORMAT_XRGB8888 := by omega
  exact ⟨hf, rfl, rfl, rfl, rfl, by rw [hf]⟩

theorem descInv_step (s s' : Screencopy) (e : FrameEvent) (h : s.step e = some s')
    (hinv : descInv s) : descInv s' := by
  cases e with
  | ready =>
    cases h
    intro d hd
    exact hinv d hd
  | failed =>
    cases h
    intro d hd
    exact hinv d hd
  | other =>
    cases h
    exact hinv
  | linux_dmabuf format width height =>
    cases h
    intro d hd
    simp only [handle_linux_dmabuf] at hd ⊢
    by_cases hc : s.dmabuf_desc = some ⟨format, width, height⟩
    · rw [if_pos hc] at hd ⊢
      exact hinv d hd
    · rw [if_neg hc] at hd
      cases hd
  | buffer_done env =>
    simp only [Screencopy.step, handle_buffer_done] at h
    cases hb : s.dmabuf with
    | some d0 =>
      simp only [hb] at h
      cases h
      exact hinv
    | none =>
      simp only [hb] at h
      cases hdesc : s.dmabuf_desc with
      | none => simp only [hdesc] at h; cases h
      | some desc =>
        simp only [hdesc] at h
        cases hnew : ScreencopyDmabuf.new env desc with
        | ok d1 =>
          simp only [hnew] at h
          cases h
          intro d hd
          simp only [Option.some.injEq] at hd
          obtain ⟨hf, hw, hh, htf, -, hci⟩ := dmabuf_new_ok env desc d1 hnew
          subst hd
          have hdeq : desc = ⟨DRM_FORMAT_XRGB8888, d1.tex_width, d1.tex_height⟩ := by
            obtain ⟨f, w, hgt⟩ := desc
            simp only [ScreencopyDmabufDescriptor.mk.injEq]
            exact ⟨hf, hw.symm, hh.symm⟩
          refine ⟨?_, htf, ?_⟩
          · rw [hdeq]
          · rw [hci, hw, hh, hf]
        | err m c => simp only [hnew] at h; cases h
        | fatal m => simp only [hnew] at h; cases h

theorem descInv_runFrom (events : List FrameEvent) (s s' : Screencopy)
    (h : Screencopy.runFrom s events = some s') (hinv : descInv s) : descInv s' := by
  induction events generalizing s with
  | nil => cases h; exact hinv
  | cons e rest ih =>
    unfold Screencopy.runFrom at h
    cases hstep : s.step e with
    | none => rw [hstep] at h; cases h
    | some s1 =>
      rw [hstep] at h
      exact ih s1 h (descInv_step s s1 e hstep hinv)

theorem descInv_run (events : List FrameEvent) (s : Screencopy)
    (h : Screencopy.run events = some s) : descInv s :=
  descInv_runFrom events Screencopy.init s h (fun d hd => by cases hd)

theorem step_state_cases (s : Screencopy) (e : FrameEvent) (s' : Screencopy)
    (h : s.step e = some s') :
    s'.state = s.state ∨ (e = .ready ∧ s'.state = .Ready) ∨
      (e = .failed ∧ s'.state = .Failed) := by
  cases e with
  | ready => cases h; exact Or.inr (Or.inl ⟨rfl, rfl⟩)
  | failed => cases h; exact Or.inr (Or.inr ⟨rfl, rfl⟩)
  | other => cases h; exact Or.inl rfl
  | linux_dmabuf format width height =>
    cases h
    simp only [handle_linux_dmabuf]
    split <;> exact Or.inl rfl
  | buffer_done env =>
    simp only [Screencopy.step, handle_buffer_done] at h
    cases hb : s.dmabuf with
    | some d0 => simp only [hb] at h; cases h; exact Or.inl rfl
    | none =>
      simp only [hb] at h
      cases hdesc : s.dmabuf_desc with
      | none => simp only [hdesc] at h; cases h
      | some desc =>
        simp only [hdesc] at h
        cases hnew : ScreencopyDmabuf.new env desc with
        | ok d1 => simp only [hnew] at h; cases h; exact Or.inl rfl
        | err m c => simp only [hnew] at h; cases h
        | fatal m => simp only [hnew] at h; cases h

/-! ## C1 -/

/-- C1 counterexample: after the normal event flow descriptor event then
buffer-negotiation-complete (which the handler answers by building the
imported bundle and issuing the copy request), the session holds
`imported = Some` while its state is still `Pending` — the terminal
`Ready` event has not arrived yet. This refutes the claim that `imported`
is `Some` only when the state is `Ready`. -/
theorem c1_counterexample :
    (Screencopy.run sampleFrameEvents).map Screencopy.state = some .Pending ∧
    (Screencopy.run sampleFrameEvents).map (fun s => s.dmabuf.isSome) = some true := by
  exact ⟨rfl, rfl⟩

/-- C1 (amended): the imported bundle is independent of the session state;
it can be `Some` while the state is `Pending` (between buffer negotiation
and the terminal event) or `Failed`. What every reachable state does
satisfy is that an imported bundle exists only when a descriptor is
stored. -/
theorem c1_imported_requires_descriptor (events : List FrameEvent) (s : Screencopy)
    (h : Screencopy.run events = some s) :
    s.dmabuf.isSome = true → s.dmabuf_desc.isSome = true := by
  intro hd
  cases hb : s.dmabuf with
  | none => rw [hb] at hd; cases hd
  | some d =>
    have := (descInv_run events s h) d hb
    rw [this.1]
    rfl

/-- C1 witness: the reachability hypothesis discharged at the sample
capture flow. -/
theorem c1_witness :
    Screencopy.run sampleFrameEvents = some sampleSession ∧
    (sampleSession.dmabuf.isSome = true → sampleSession.dmabuf_desc.isSome = true) :=
  ⟨rfl, c1_imported_requires_descriptor sampleFrameEvents sampleSession rfl⟩

/-! ## C4 -/

/-- C4 counterexample: from a fresh session, a `failed` event followed by a
`ready` event leaves the state `Ready`: the handlers set the terminal
state unconditionally, so a `Failed` session is changed by a subsequent
event, refuting the claim that once `Failed` no subsequent event changes
the state. -/
theorem c4_counterexample :
    (Screencopy.run [.failed]).map Screencopy.state = some .Failed ∧
    (Screencopy.run [.failed, .ready]).map Screencopy.state = some .Ready := by
  exact ⟨rfl, rfl⟩

/-- C4 (amended): the state never returns to `Pending` (no event sets
`Pending`), and every state change is a `ready` or `failed` event
installing its terminal state unconditionally; in particular
`Pending -> Ready` and `Pending -> Failed` are the only transitions out of
`Pending`, but `Failed -> Ready` and `Ready -> Failed` do occur when the
event sequence delivers both terminal events. -/
theorem c4_state_never_returns_to_pending (s : Screencopy) (e : FrameEvent)
    (s' : Screencopy) (h : s.step e = some s') :
    (s.state ≠ .Pending → s'.state ≠ .Pending) ∧
    (s'.state ≠ s.state →
      (e = .ready ∧ s'.state = .Ready) ∨ (e = .failed ∧ s'.state = .Failed)) := by
  have hc := step_state_cases s e s' h
  constructor
  · intro hne
    rcases hc with hs | ⟨-, hs⟩ | ⟨-, hs⟩
    · rw [hs]; exact hne
    · rw [hs]; intro hx; cases hx
    · rw [hs]; intro hx; cases hx
  · intro hne
    rcases hc with hs | hs | hs
    · exact absurd hs hne
    · exact Or.inl hs
    · exact Or.inr hs

/-- C4 witness: the step hypothesis discharged at a `Ready` session
receiving a no-op event. -/
theorem c4_witness :
    ((⟨.Ready, none, none⟩ : Screencopy).state ≠ .Pending →
      (⟨.Ready, none, none⟩ : Screencopy).state ≠ .Pending) ∧
    ((⟨.Ready, none, none⟩ : Screencopy).state ≠ (⟨.Ready, none, none⟩ : Screencopy).state →
      (FrameEvent.other = .ready ∧ (⟨.Ready, none, none⟩ : Screencopy).state = .Ready) ∨
      (FrameEvent.other = .failed ∧ (⟨.Ready, none, none⟩ : Screencopy).state = .Failed)) :=
  c4_state_never_returns_to_pending ⟨.Ready, none, none⟩ .other ⟨.Ready, none, none⟩ rfl

/-! ## C7 -/

/-- C7 counterexample: in the main.rs dispatch arm, a descriptor event that
differs from the stored descriptor immediately rebuilds the imported
bundle at that moment, so the session holds `imported = Some` right after
the descriptor event and before any buffer-negotiation-complete event.
This refutes the part of the claim that says the bundle is set to `None`
and not recreated until the next buffer-negotiation-complete event. -/
theorem c7_counterexample :
    (mainFrameStep ⟨.Pending, some ⟨DRM_FORMAT_XRGB8888, 800, 600⟩, none⟩
        (.linux_dmabuf DRM_FORMAT_XRGB8888 640 480 envOk)).map
        (fun s => s.dmabuf.isSome) = some true ∧
    (mainFrameStep ⟨.Pending, some ⟨DRM_FORMAT_XRGB8888, 800, 600⟩, none⟩
        (.linux_dmabuf DRM_FORMAT_XRGB8888 640 480 envOk)).map
        (fun s => s.dmabuf_desc) = some (some ⟨DRM_FORMAT_XRGB8888, 640, 480⟩) := by
  exact ⟨rfl, rfl⟩

/-- C7 (amended): descriptor equality is componentwise, an equal incoming
descriptor leaves the session unchanged in both implementations, and a
differing descriptor replaces the stored descriptor and discards the old
bundle in both; but only the wayland_screencopy.rs handler leaves the
bundle `None` until the next buffer-negotiation-complete event — the
main.rs dispatch arm rebuilds the bundle immediately at the descriptor
event. -/
theorem c7_descriptor_renegotiation :
    (∀ d1 d2 : ScreencopyDmabufDescriptor,
      d1 = d2 ↔ d1.format = d2.format ∧ d1.width = d2.width ∧ d1.height = d2.height) ∧
    (∀ (s : Screencopy) (format width height : ℕ),
      (s.dmabuf_desc = some ⟨format, width, height⟩ →
        handle_linux_dmabuf s format width height = s) ∧
      (s.dmabuf_desc ≠ some ⟨format, width, height⟩ →
        handle_linux_dmabuf s format width height =
          { s with dmabuf_desc := some ⟨format, width, height⟩, dmabuf := none })) ∧
    (∀ (s : Screencopy) (format width height : ℕ) (env : DmabufEnv) (s' : Screencopy),
      mainFrameStep s (.linux_dmabuf format width height env) = some s' →
      (s.dmabuf_desc = some ⟨format, width, height⟩ → s' = s) ∧
      (s.dmabuf_desc ≠ some ⟨format, width, height⟩ →
        s'.dmabuf_desc = some ⟨format, width, height⟩ ∧ s'.dmabuf.isSome = true)) := by
  refine ⟨?_, ?_, ?_⟩
  · intro d1 d2
    constructor
    · intro h
      rw [h]
      exact ⟨rfl, rfl, rfl⟩
    · intro ⟨hf, hw, hh⟩
      cases d1
      cases d2
      simp only at hf hw hh
      rw [hf, hw, hh]
  · intro s format width height
    constructor
    · intro hc
      simp only [handle_linux_dmabuf]
      rw [if_pos hc]
    · intro hc
      simp only [handle_linux_dmabuf]
      rw [if_neg hc]
  · intro s format width height env s' h
    simp only [mainFrameStep] at h
    by_cases hc : s.dmabuf_desc = some ⟨format, width, height⟩
    · rw [if_pos hc] at h
      cases h
      exact ⟨fun _ => rfl, fun hne => absurd hc hne⟩
    · rw [if_neg hc] at h
      refine ⟨fun heq => absurd heq hc, fun _ => ?_⟩
      cases hnew : ScreencopyDmabuf.new env ⟨format, width, height⟩ with
      | ok d1 => simp only [hnew] at h; cases h; exact ⟨rfl, rfl⟩
      | err m c => simp only [hnew] at h; cases h
      | fatal m => simp only [hnew] at h; cases h

/-- C7 witness: the conditional parts discharged at concrete sessions, one
per implementation. -/
theorem c7_witness :
    handle_linux_dmabuf ⟨.Ready, some ⟨DRM_FORMAT_XRGB8888, 640, 480⟩, none⟩
        DRM_FORMAT_XRGB8888 640 480 =
      (⟨.Ready, some ⟨DRM_FORMAT_XRGB8888, 640, 480⟩, none⟩ : Screencopy) ∧
    handle_linux_dmabuf ⟨.Ready, some ⟨DRM_FORMAT_XRGB8888, 640, 480⟩, none⟩
        DRM_FORMAT_XRGB8888 800 600 =
      (⟨.Ready, some ⟨DRM_FORMAT_XRGB8888, 800, 600⟩, none⟩ : Screencopy) :=
  ⟨(c7_descriptor_renegotiation.2.1 ⟨.Ready, some ⟨DRM_FORMAT_XRGB8888, 640, 480⟩, none⟩
      DRM_FORMAT_XRGB8888 640 480).1 rfl,
    (c7_descriptor_renegotiation.2.1 ⟨.Ready, some ⟨DRM_FORMAT_XRGB8888, 640, 480⟩, none⟩
      DRM_FORMAT_XRGB8888 800 600).2 (by decide)⟩

/-! ## C8 -/

/-- C8: in every reachable wayland_screencopy.rs session state, the
imported bundle was allocated with exactly the (format, width, height)
triple of the stored (most recent) descriptor: the GL texture carries the
descriptor dimensions and the mapped `Bgra8Unorm` format, and the protocol
buffer object was registered with the same triple; moreover
`ScreencopyDmabuf::new` always passes the buffer-params `add` request its
arguments in the order (fd, plane index 0, offset, stride, modifier high
32 bits, modifier low 32 bits), a split that recomposes to the 64-bit
modifier. -/
theorem c8_wire_contract (events : List FrameEvent) (s : Screencopy)
    (d : ScreencopyDmabuf) (h : Screencopy.run events = some s)
    (hd : s.dmabuf = some d) :
    (s.dmabuf_desc = some ⟨DRM_FORMAT_XRGB8888, d.tex_width, d.tex_height⟩ ∧
      d.tex_format = .Bgra8Unorm ∧
      d.create_immed_args = (d.tex_width, d.tex_height, DRM_FORMAT_XRGB8888, 0)) ∧
    (∀ (env : DmabufEnv) (desc : ScreencopyDmabufDescriptor) (d' : ScreencopyDmabuf),
      ScreencopyDmabuf.new env desc = .ok d' →
      d'.tex_width = desc.width ∧ d'.tex_height = desc.height ∧
      d'.add_args =
        (env.fd, 0, castU32 env.offset, castU32 env.stride,
          env.modifiers / 2 ^ 32, env.modifiers % 2 ^ 32) ∧
      (env.modifiers / 2 ^ 32) * 2 ^ 32 + env.modifiers % 2 ^ 32 = env.modifiers ∧
      (env.modifiers < 2 ^ 64 →
        env.modifiers / 2 ^ 32 < 2 ^ 32 ∧ env.modifiers % 2 ^ 32 < 2 ^ 32)) := by
  constructor
  · exact descInv_run events s h d hd
  · intro env desc d' hnew
    obtain ⟨-, hw, hh, -, hadd, -⟩ := dmabuf_new_ok env desc d' hnew
    refine ⟨hw, hh, hadd, ?_, ?_⟩
    · rw [Nat.mul_comm]
      exact Nat.div_add_mod env.modifiers (2 ^ 32)
    · intro hlt
      constructor
      · exact Nat.div_lt_of_lt_mul (by omega)
      · exact Nat.mod_lt _ (by norm_num)

/-- C8 witness: the reachability and bundle hypotheses discharged at the
sample capture flow. -/
theorem c8_witness :
    (sampleSession.dmabuf_desc =
        some ⟨DRM_FORMAT_XRGB8888, sampleDmabuf.tex_width, sampleDmabuf.tex_height⟩ ∧
      sampleDmabuf.tex_format = .Bgra8Unorm ∧
      sampleDmabuf.create_immed_args =
        (sampleDmabuf.tex_width, sampleDmabuf.tex_height, DRM_FORMAT_XRGB8888, 0)) ∧
    (∀ (env : DmabufEnv) (desc : ScreencopyDmabufDescriptor) (d' : ScreencopyDmabuf),
      ScreencopyDmabuf.new env desc = .ok d' →
      d'.tex_width = desc.width ∧ d'.tex_height = desc.height ∧
      d'.add_args =
        (env.fd, 0, castU32 env.offset, castU32 env.stride,
          env.modifiers / 2 ^ 32, env.modifiers % 2 ^ 32) ∧
      (env.modifiers / 2 ^ 32) * 2 ^ 32 + env.modifiers % 2 ^ 32 = env.modifiers ∧
      (env.modifiers < 2 ^ 64 →
        env.modifiers / 2 ^ 32 < 2 ^ 32 ∧ env.modifiers % 2 ^ 32 < 2 ^ 32)) :=
  c8_wire_contract sampleFrameEvents sampleSession sampleDmabuf rfl rfl

/-! ## C5 -/

/-- C5 counterexample: both UnsupportedFormat conditions abort through a
panic instead of being returned as a structured result: an unhandled
fourcc format hits `unimplemented!` inside `ScreencopyDmabuf::new`, and a
plane count other than 1 hits `assert!(num_planes == 1)`. -/
theorem c5_counterexample :
    ScreencopyDmabuf.new envOk descBadFormat = .fatal "unhandled fourcc format" ∧
    ScreencopyDmabuf.new envTwoPlanes descOk =
      .fatal "assertion failed: num_planes == 1" := by
  exact ⟨rfl, rfl⟩

/-- C5 (amended): PlatformApiError (failed checked EGL calls, carrying the
raw platform code), ProtocolUnavailable (missing `zwp_linux_dmabuf_v1` or
`zwlr_screencopy_manager_v1` global) and CaptureFailed (a `Failed` session
observed by `capture_all_screens`) are returned synchronously as
structured results, and a detected failure is never retried (the loop
returns at once, consuming no further dispatch batches); but
UnsupportedFormat — an unhandled fourcc format or a plane count other
than 1 — aborts via a panic (`unimplemented!` / `assert!`) instead of
being returned. -/
theorem c5_error_paths (env : DmabufEnv) (desc : ScreencopyDmabufDescriptor) :
    (desc.format ≠ DRM_FORMAT_XRGB8888 →
      ScreencopyDmabuf.new env desc = .fatal "unhandled fourcc format") ∧
    (desc.format = DRM_FORMAT_XRGB8888 → env.image_ok = true → env.query_ok = true →
      env.num_planes ≠ 1 →
      ScreencopyDmabuf.new env desc = .fatal "assertion failed: num_planes == 1") ∧
    (desc.format = DRM_FORMAT_XRGB8888 → env.image_ok = false →
      ScreencopyDmabuf.new env desc =
        .err "could not create egl khr image" (some env.egl_err_code)) ∧
    (desc.format = DRM_FORMAT_XRGB8888 → env.image_ok = true → env.query_ok = false →
      ScreencopyDmabuf.new env desc =
        .err "could not retrieve pixel format" (some env.egl_err_code)) ∧
    (desc.format = DRM_FORMAT_XRGB8888 → env.image_ok = true → env.query_ok = true →
      env.num_planes = 1 → env.export_ok = false →
      ScreencopyDmabuf.new env desc =
        .err "could not retrieve dmabuf fd" (some env.egl_err_code)) ∧
    (desc.format = DRM_FORMAT_XRGB8888 → env.image_ok = true → env.query_ok = true →
      env.num_planes = 1 → env.export_ok = true → env.linux_dmabuf_available = false →
      ScreencopyDmabuf.new env desc = .err "linux dmabuf is not available" none) ∧
    (∀ avail : Bool, avail = false →
      Screencopy.capture avail = .err "screencopy manager is not available" none) ∧
    (∀ (batches : List (List (ℕ × MainFrameEvent))) (screens : List (Option Screencopy)),
      checkScreens screens = .err "screencopy failed" none →
      captureLoop batches screens = some (.err "screencopy failed" none, screens)) := by
  refine ⟨?_, ?_, ?_, ?_, ?_, ?_, ?_, ?_⟩
  · intro h1
    simp [ScreencopyDmabuf.new, h1]
  · intro h1 h2 h3 h4
    simp [ScreencopyDmabuf.new, h1, h2, h3, h4]
  · intro h1 h2
    simp [ScreencopyDmabuf.new, h1, h2]
  · intro h1 h2 h3
    simp [ScreencopyDmabuf.new, h1, h2, h3]
  · intro h1 h2 h3 h4 h5
    simp [ScreencopyDmabuf.new, h1, h2, h3, h4, h5]
  · intro h1 h2 h3 h4 h5 h6
    simp [ScreencopyDmabuf.new, h1, h2, h3, h4, h5, h6]
  · intro avail h1
    simp [Screencopy.capture, h1]
  · intro batches screens h1
    cases batches <;> simp [captureLoop, h1]

/-- C5 witness: the ProtocolUnavailable and CaptureFailed branches
discharged at concrete inputs. -/
theorem c5_witness :
    Screencopy.capture false = .err "screencopy manager is not available" none ∧
    captureLoop [] [some ⟨.Failed, none, none⟩] =
      some (.err "screencopy failed" none, [some ⟨.Failed, none, none⟩]) :=
  ⟨(c5_error_paths envOk descOk).2.2.2.2.2.2.1 false rfl,
    (c5_error_paths envOk descOk).2.2.2.2.2.2.2 [] [some ⟨.Failed, none, none⟩] rfl⟩

/-! ## C6 -/

theorem checkScreens_err (screens : List (Option Screencopy)) (m : String)
    (c : Option ℕ) (h : checkScreens screens = .err m c) :
    m = "screencopy failed" ∧ c = none := by
  induction screens with
  | nil => cases h
  | cons hd rest ih =>
    cases hd with
    | none => cases h
    | some s =>
      unfold checkScreens at h
      by_cases hs : s.state = .Failed
      · rw [if_pos hs] at h
        cases h
        exact ⟨rfl, rfl⟩
      · rw [if_neg hs] at h
        cases hrec : checkScreens rest with
        | ok n => rw [hrec] at h; cases h
        | err m1 c1 =>
          rw [hrec] at h
          cases h
          exact ih hrec
        | fatal m1 => rw [hrec] at h; cases h

theorem checkScreens_ok_zero (screens : List (Option Screencopy))
    (h : checkScreens screens = .ok 0) :
    ∀ sc : Screencopy, some sc ∈ screens → sc.state = .Ready := by
  induction screens with
  | nil => intro sc hm; cases hm
  | cons hd rest ih =>
    cases hd with
    | none => cases h
    | some s =>
      unfold checkScreens at h
      by_cases hs : s.state = .Failed
      · rw [if_pos hs] at h; cases h
      · rw [if_neg hs] at h
        cases hrec : checkScreens rest with
        | err m1 c1 => rw [hrec] at h; cases h
        | fatal m1 => rw [hrec] at h; cases h
        | ok n =>
          rw [hrec] at h
          simp only [Outcome.ok.injEq] at h
          have hn : n = 0 ∧ ¬s.state = .Pending := by
            by_cases hp : s.state = .Pending
            · rw [if_pos hp] at h
              exact absurd h (by omega)
            · rw [if_neg hp] at h
              exact ⟨by omega, hp⟩
          intro sc hm
          rcases List.mem_cons.mp hm with heq | hmem
          · have hsc : sc = s := by injection heq
            rw [hsc]
            cases hst : s.state with
            | Pending => exact absurd hst hn.2
            | Ready => rfl
            | Failed => exact absurd hst hs
          · exact ih (by rw [hrec, hn.1]) sc hmem

theorem captureLoop_spec (batches : List (List (ℕ × MainFrameEvent)))
    (screens : List (Option Screencopy)) (res : Outcome Unit)
    (screens' : List (Option Screencopy))
    (h : captureLoop batches screens = some (res, screens')) :
    (∃ k, dispatchMany (batches.take k) screens = some screens') ∧
    (∀ m c, res = .err m c →
      m = "screencopy failed" ∧ c = none ∧ checkScreens screens' = .err m c) ∧
    (res = .ok () → checkScreens screens' = .ok 0) := by
  induction batches generalizing screens with
  | nil =>
    unfold captureLoop at h
    cases hc : checkScreens screens with
    | err m1 c1 =>
      rw [hc] at h
      simp only [Option.some.injEq, Prod.mk.injEq] at h
      obtain ⟨hres, hscr⟩ := h
      obtain ⟨hm, hcn⟩ := checkScreens_err screens m1 c1 hc
      refine ⟨⟨0, congrArg some hscr⟩, ?_, ?_⟩
      · intro m c hres2
        rw [← hres] at hres2
        cases hres2
        exact ⟨hm, hcn, by rw [← hscr]; exact hc⟩
      · intro hres2
        rw [← hres] at hres2
        cases hres2
    | fatal m1 => rw [hc] at h; cases h
    | ok n =>
      rw [hc] at h
      cases n with
      | zero =>
        simp only [Option.some.injEq, Prod.mk.injEq] at h
        obtain ⟨hres, hscr⟩ := h
        refine ⟨⟨0, congrArg some hscr⟩, ?_, ?_⟩
        · intro m c hres2
          rw [← hres] at hres2
          cases hres2
        · intro _
          rw [← hscr]
          exact hc
      | succ n1 => cases h
  | cons b rest ih =>
    unfold captureLoop at h
    cases hc : checkScreens screens with
    | err m1 c1 =>
      rw [hc] at h
      simp only [Option.some.injEq, Prod.mk.injEq] at h
      obtain ⟨hres, hscr⟩ := h
      obtain ⟨hm, hcn⟩ := checkScreens_err screens m1 c1 hc
      refine ⟨⟨0, congrArg some hscr⟩, ?_, ?_⟩
      · intro m c hres2
        rw [← hres] at hres2
        cases hres2
        exact ⟨hm, hcn, by rw [← hscr]; exact hc⟩
      · intro hres2
        rw [← hres] at hres2
        cases hres2
    | fatal m1 => rw [hc] at h; cases h
    | ok n =>
      rw [hc] at h
      cases n with
      | zero =>
        simp only [Option.some.injEq, Prod.mk.injEq] at h
        obtain ⟨hres, hscr⟩ := h
        refine ⟨⟨0, congrArg some hscr⟩, ?_, ?_⟩
        · intro m c hres2
          rw [← hres] at hres2
          cases hres2
        · intro _
          rw [← hscr]
          exact hc
      | succ n1 =>
        cases hd : dispatchBatch screens b with
        | none => rw [hd] at h; cases h
        | some screens1 =>
          rw [hd] at h
          obtain ⟨⟨k, hk⟩, herr, hok⟩ := ih screens1 h
          refine ⟨⟨k + 1, ?_⟩, herr, hok⟩
          simp only [List.take_succ_cons, dispatchMany, hd]
          exact hk

/-- C6 counterexample: two batch runs in which a different output fails
(output 1 in the first run, output 0 in the second) return the same fixed
error value `anyhow!("screencopy failed")`: the error does not identify
the failing output index, refuting that part of the claim. The final
session lists also show that the `Ready` output keeps its state. -/
theorem c6_counterexample :
    capture_all_screens true [none, none] [[(0, .ready), (1, .failed)]] =
      some (.err "screencopy failed" none,
        [some ⟨.Ready, none, none⟩, some ⟨.Failed, none, none⟩]) ∧
    capture_all_screens true [none, none] [[(0, .failed), (1, .ready)]] =
      some (.err "screencopy failed" none,
        [some ⟨.Failed, none, none⟩, some ⟨.Ready, none, none⟩]) ∧
    (capture_all_screens true [none, none] [[(0, .ready), (1, .failed)]]).map Prod.fst =
      (capture_all_screens true [none, none] [[(0, .failed), (1, .ready)]]).map Prod.fst := by
  exact ⟨rfl, rfl, rfl⟩

/-- C6 (amended): when `capture_all_screens` returns an error it is either
the unavailability error (sessions untouched) or the fixed message
"screencopy failed", which does not identify the failing output index; in
the latter case the returned session list still contains the detected
`Failed` session and is exactly the armed sessions transformed by a prefix
of the dispatched event batches — the orchestrator itself rolls nothing
back, so sessions that reached `Ready` keep their state and imported
resources; on success every session is `Ready` (none `Pending`, none
`Failed`). -/
theorem c6_capture_all_characterization (avail : Bool)
    (screens0 : List (Option Screencopy))
    (batches : List (List (ℕ × MainFrameEvent))) (res : Outcome Unit)
    (screens' : List (Option Screencopy))
    (h : capture_all_screens avail screens0 batches = some (res, screens')) :
    (∀ m c, res = .err m c →
      (m = "screencopy manager is unavail" ∧ c = none ∧ screens' = screens0) ∨
      (m = "screencopy failed" ∧ c = none ∧ checkScreens screens' = .err m c ∧
        ∃ k, dispatchMany (batches.take k)
          (screens0.map fun _ => some Screencopy.init) = some screens')) ∧
    (res = .ok () → ∀ sc : Screencopy, some sc ∈ screens' → sc.state = .Ready) := by
  unfold capture_all_screens at h
  split at h
  · simp only [Option.some.injEq, Prod.mk.injEq] at h
    obtain ⟨hres, hss⟩ := h
    refine ⟨?_, ?_⟩
    · intro m c hres2
      rw [← hres] at hres2
      cases hres2
      exact Or.inl ⟨rfl, rfl, hss.symm⟩
    · intro hres2
      rw [← hres] at hres2
      cases hres2
  · split at h
    · cases h
    · obtain ⟨⟨k, hk⟩, herr, hok⟩ := captureLoop_spec batches _ res screens' h
      refine ⟨?_, ?_⟩
      · intro m c hres
        obtain ⟨hm, hcn, hcheck⟩ := herr m c hres
        exact Or.inr ⟨hm, hcn, hcheck, k, hk⟩
      · intro hres
        exact checkScreens_ok_zero screens' (hok hres)

/-- C6 witness: the run hypothesis discharged at the concrete two-output
run in which output 1 fails. -/
theorem c6_witness :
    (∀ m c, (Outcome.err "screencopy failed" none : Outcome Unit) = .err m c →
      (m = "screencopy manager is unavail" ∧ c = none ∧
        ([some ⟨.Ready, none, none⟩, some ⟨.Failed, none, none⟩] :
          List (Option Screencopy)) = [none, none]) ∨
      (m = "screencopy failed" ∧ c = none ∧
        checkScreens [some ⟨.Ready, none, none⟩, some ⟨.Failed, none, none⟩] = .err m c ∧
        ∃ k, dispatchMany (([[(0, .ready), (1, .failed)]] :
            List (List (ℕ × MainFrameEvent))).take k)
          (([none, none] : List (Option Screencopy)).map fun _ => some Screencopy.init) =
          some [some ⟨.Ready, none, none⟩, some ⟨.Failed, none, none⟩])) ∧
    ((Outcome.err "screencopy failed" none : Outcome Unit) = .ok () →
      ∀ sc : Screencopy,
        some sc ∈ ([some ⟨.Ready, none, none⟩, some ⟨.Failed, none, none⟩] :
          List (Option Screencopy)) → sc.state = .Ready) :=
  c6_capture_all_characterization true [none, none] [[(0, .ready), (1, .failed)]]
    (.err "screencopy failed" none)
    [some ⟨.Ready, none, none⟩, some ⟨.Failed, none, none⟩] rfl

/-! ## Overlay lemmas -/

theorem overlayInv_step (o o' : Overlay) (e : OverlayEvent) (h : o.step e = some o')
    (hinv : overlayInv o) : overlayInv o' := by
  obtain ⟨h1, h2, h3, h4, h5, h6⟩ := hinv
  cases e with
  | closed => cases h
  | preferred_scale scale =>
    simp only [Overlay.step, Overlay.configure, Option.isSome_some, Option.isSome_none,
      eq_self_iff_true, if_true, Bool.false_eq_true, if_false] at h
    split at h
    · cases h
      exact ⟨h1, h2, h3, h4, h5, h6⟩
    next hac =>
      have hacked : o.acked_first_configure = true := by
        cases hb : o.acked_first_configure with
        | true => rfl
        | false => exact absurd hb hac
      split at h
      next hls => cases h
      next lsz hls =>
        split at h
        next hw =>
          exact absurd (congrArg Option.isSome hw) (by simp [(h6 hacked).1])
        next w hw =>
          cases h
          exact ⟨h1, h2, h3, h4, h5, h6⟩
  | layer_configure serial width height =>
    simp only [Overlay.step, Overlay.configure, Option.isSome_some, Option.isSome_none,
      eq_self_iff_true, if_true, Bool.false_eq_true, if_false, Bool.true_eq_false] at h
    split at h
    next hw =>
      split at h
      next hsurf => cases h
      next hsurf =>
        cases h
        have hc0 : o.creations = 0 := h4 hw
        refine ⟨?_, rfl, ?_, ?_, ?_, ?_⟩
        · show o.creations + 1 ≤ 1
          omega
        · intro i hi
          have hio : o.creations = i := by injection hi
          refine ⟨by omega, ?_, ?_⟩
          · show some o.creations = some 0
            rw [hc0]
          · show o.creations + 1 = 1
            omega
        · intro hcontra
          cases hcontra
        · intro _
          exact ⟨rfl, rfl⟩
        · intro _
          exact ⟨rfl, rfl⟩
    next w hw =>
      cases h
      refine ⟨h1, h2, h3, h4, fun _ => ⟨rfl, rfl⟩, fun _ => ⟨?_, rfl⟩⟩
      show o.window.isSome = true
      rw [hw]
      rfl

theorem overlay_step_keeps_surface (o o' : Overlay) (e : OverlayEvent) (i : ℕ)
    (hinv : overlayInv o) (hs : o.window_surface = some i) (h : o.step e = some o') :
    o'.window_surface = some i ∧ o'.window = o.window ∧ o'.creations = o.creations := by
  obtain ⟨h1, h2, h3, h4, h5, h6⟩ := hinv
  have hw : o.window.isSome = true := by
    rw [← h2, hs]
    rfl
  obtain ⟨w, hww⟩ := Option.isSome_iff_exists.mp hw
  cases e with
  | closed => cases h
  | preferred_scale scale =>
    simp only [Overlay.step, Overlay.configure, Option.isSome_some, Option.isSome_none,
      eq_self_iff_true, if_true, Bool.false_eq_true, if_false] at h
    split at h
    · cases h
      exact ⟨hs, rfl, rfl⟩
    next hac =>
      split at h
      next hls => cases h
      next lsz hls =>
        split at h
        next hw2 => exact absurd (hww.symm.trans hw2) (by simp)
        next w2 hw2 =>
          cases h
          exact ⟨hs, rfl, rfl⟩
  | layer_configure serial width height =>
    simp only [Overlay.step, Overlay.configure, Option.isSome_some, Option.isSome_none,
      eq_self_iff_true, if_true, Bool.false_eq_true, if_false, Bool.true_eq_false] at h
    split at h
    next hw2 => exact absurd (hww.symm.trans hw2) (by simp)
    next w2 hw2 =>
      cases h
      exact ⟨hs, rfl, rfl⟩

theorem overlay_scale_only_step (o o' : Overlay) (scale : ℕ)
    (hinv : overlayInv o) (h : o.step (.preferred_scale scale) = some o') :
    o'.window = o.window ∧ o'.window_surface = o.window_surface ∧
    o'.logical_size = o.logical_size ∧
    o'.acked_first_configure = o.acked_first_configure ∧
    o'.creations = o.creations ∧
    o'.fractional_scale = some ((scale : ℚ) / 120) := by
  obtain ⟨h1, h2, h3, h4, h5, h6⟩ := hinv
  simp only [Overlay.step, Overlay.configure, Option.isSome_some, Option.isSome_none,
    eq_self_iff_true, if_true, Bool.false_eq_true, if_false] at h
  split at h
  · cases h
    exact ⟨rfl, rfl, rfl, rfl, rfl, rfl⟩
  next hac =>
    have hacked : o.acked_first_configure = true := by
      cases hb : o.acked_first_configure with
      | true => rfl
      | false => exact absurd hb hac
    split at h
    next hls => cases h
    next lsz hls =>
      split at h
      next hw =>
        exact absurd (congrArg Option.isSome hw) (by simp [(h6 hacked).1])
      next w hw =>
        cases h
        exact ⟨rfl, rfl, rfl, rfl, rfl, rfl⟩

theorem overlayInv_runFrom (events : List OverlayEvent) (o o' : Overlay)
    (h : Overlay.runFrom o events = some o') (hinv : overlayInv o) : overlayInv o' := by
  induction events generalizing o with
  | nil => cases h; exact hinv
  | cons e rest ih =>
    unfold Overlay.runFrom at h
    cases hstep : o.step e with
    | none => rw [hstep] at h; cases h
    | some o1 =>
      rw [hstep] at h
      exact ih o1 h (overlayInv_step o o1 e hstep hinv)

theorem overlayInv_init : overlayInv Overlay.init := by
  refine ⟨by decide, rfl, ?_, fun _ => rfl, ?_, ?_⟩
  · intro i hi
    cases hi
  · intro hcontra
    cases hcontra
  · intro hcontra
    cases hcontra

/-! ## C2 -/

/-- C2: in every reachable `Overlay` state, the EGL window surface was
created at most once over the lifetime, it exists only when
`acked_first_configure` is true and a logical size is known, once it
exists any further event (in particular a scale-only preferred-scale
event) leaves the window and window-surface identities and the creation
count unchanged, and a scale-only event changes nothing but the
fractional scale (and the viewport destination it recommits). -/
theorem c2_window_surface_created_once (events : List OverlayEvent) (o : Overlay)
    (h : Overlay.run events = some o) :
    (o.window_surface.isSome = true →
      o.acked_first_configure = true ∧ o.logical_size.isSome = true) ∧
    o.creations ≤ 1 ∧
    (∀ (e : OverlayEvent) (o' : Overlay) (i : ℕ),
      o.step e = some o' → o.window_surface = some i →
      o'.window_surface = some i ∧ o'.window = o.window ∧ o'.creations = o.creations) ∧
    (∀ (scale : ℕ) (o' : Overlay), o.step (.preferred_scale scale) = some o' →
      o'.window = o.window ∧ o'.window_surface = o.window_surface ∧
      o'.logical_size = o.logical_size ∧
      o'.acked_first_configure = o.acked_first_configure ∧
      o'.creations = o.creations) := by
  have hinv : overlayInv o := overlayInv_runFrom events Overlay.init o h overlayInv_init
  refine ⟨hinv.2.2.2.2.1, hinv.1, ?_, ?_⟩
  · intro e o' i hstep hs
    exact overlay_step_keeps_surface o o' e i hinv hs hstep
  · intro scale o' hstep
    obtain ⟨g1, g2, g3, g4, g5, -⟩ := overlay_scale_only_step o o' scale hinv hstep
    exact ⟨g1, g2, g3, g4, g5⟩

/-- C2 witness: the reachability hypothesis discharged at the sample
overlay event sequence (scale, first configure, scale-only update). -/
theorem c2_witness :
    (sampleOverlay.window_surface.isSome = true →
      sampleOverlay.acked_first_configure = true ∧
      sampleOverlay.logical_size.isSome = true) ∧
    sampleOverlay.creations ≤ 1 ∧
    (∀ (e : OverlayEvent) (o' : Overlay) (i : ℕ),
      sampleOverlay.step e = some o' → sampleOverlay.window_surface = some i →
      o'.window_surface = some i ∧ o'.window = sampleOverlay.window ∧
      o'.creations = sampleOverlay.creations) ∧
    (∀ (scale : ℕ) (o' : Overlay),
      sampleOverlay.step (.preferred_scale scale) = some o' →
      o'.window = sampleOverlay.window ∧
      o'.window_surface = sampleOverlay.window_surface ∧
      o'.logical_size = sampleOverlay.logical_size ∧
      o'.acked_first_configure = sampleOverlay.acked_first_configure ∧
      o'.creations = sampleOverlay.creations) :=
  c2_window_surface_created_once sampleOverlayEvents sampleOverlay rfl

/-! ## Size round-trip lemmas -/

theorem axis_roundtrip (w : ℕ) (s : ℚ) (hs : 1 / 2 ≤ s) (hw : w ≤ 2 ^ 32 - 1)
    (hns : (w : ℚ) * s + 1 / 2 < 2 ^ 32) :
    (invScaleRound (scaleRound w s) s : ℤ) ≤ (w : ℤ) + 1 ∧
    (w : ℤ) ≤ (invScaleRound (scaleRound w s) s : ℤ) + 1 := by
  have hs0 : (0 : ℚ) < s := by linarith
  have hw0 : (0 : ℚ) ≤ (w : ℚ) := Nat.cast_nonneg w
  have hx0 : (0 : ℚ) ≤ (w : ℚ) * s := mul_nonneg hw0 hs0.le
  set p : ℤ := ⌊(w : ℚ) * s + 1 / 2⌋ with hp_def
  have hp_le : (p : ℚ) ≤ (w : ℚ) * s + 1 / 2 := Int.floor_le _
  have hp_gt : (w : ℚ) * s - 1 / 2 < (p : ℚ) := by
    have h1 := Int.lt_floor_add_one ((w : ℚ) * s + 1 / 2)
    rw [← hp_def] at h1
    push_cast at h1
    linarith
  have hp_nonneg : 0 ≤ p := Int.floor_nonneg.mpr (by linarith)
  have hp_lt : p < 2 ^ 32 := by
    have h1 : (p : ℚ) < ((2 ^ 32 : ℤ) : ℚ) := by
      push_cast
      linarith
    exact_mod_cast h1
  have hround : roundHalfAway ((w : ℚ) * s) = p := by
    show (if (0 : ℚ) ≤ (w : ℚ) * s then ⌊(w : ℚ) * s + 1 / 2⌋
      else ⌈(w : ℚ) * s - 1 / 2⌉) = p
    rw [if_pos hx0, hp_def]
  have hphys : scaleRound w s = p.toNat := by
    show satU32 (roundHalfAway ((w : ℚ) * s)) = p.toNat
    rw [hround]
    show (if p < 0 then 0 else min p.toNat (2 ^ 32 - 1)) = p.toNat
    rw [if_neg (show ¬p < 0 by omega)]
    exact Nat.min_eq_left (by omega)
  have hpq : ((p.toNat : ℕ) : ℚ) = (p : ℚ) := by
    have h' : ((p.toNat : ℕ) : ℤ) = p := Int.toNat_of_nonneg hp_nonneg
    exact_mod_cast congrArg (fun z : ℤ => (z : ℚ)) h'
  have hy0 : (0 : ℚ) ≤ (p.toNat : ℚ) / s := div_nonneg (by positivity) hs0.le
  set q : ℤ := ⌊(p.toNat : ℚ) / s + 1 / 2⌋ with hq_def
  have hq_le : (q : ℚ) ≤ (p.toNat : ℚ) / s + 1 / 2 := Int.floor_le _
  have hq_gt : (p.toNat : ℚ) / s - 1 / 2 < (q : ℚ) := by
    have h1 := Int.lt_floor_add_one ((p.toNat : ℚ) / s + 1 / 2)
    rw [← hq_def] at h1
    push_cast at h1
    linarith
  have hy_le : (p.toNat : ℚ) / s ≤ (w : ℚ) + 1 := by
    rw [div_le_iff hs0, hpq]
    have hexp : ((w : ℚ) + 1) * s = (w : ℚ) * s + s := by ring
    linarith
  have hy_ge : (w : ℚ) - 1 ≤ (p.toNat : ℚ) / s := by
    rw [le_div_iff hs0, hpq]
    have hexp : ((w : ℚ) - 1) * s = (w : ℚ) * s - s := by ring
    linarith
  have hq_le2 : q ≤ (w : ℤ) + 1 := by
    have h2 : (q : ℚ) < (w : ℚ) + 2 := by linarith
    have h3 : q < (w : ℤ) + 2 := by exact_mod_cast h2
    omega
  have hq_ge2 : (w : ℤ) - 2 < q := by
    have h2 : (w : ℚ) - 2 < (q : ℚ) := by linarith
    exact_mod_cast h2
  have hround2 : roundHalfAway ((p.toNat : ℚ) / s) = q := by
    show (if (0 : ℚ) ≤ (p.toNat : ℚ) / s then ⌊(p.toNat : ℚ) / s + 1 / 2⌋
      else ⌈(p.toNat : ℚ) / s - 1 / 2⌉) = q
    rw [if_pos hy0, hq_def]
  have hlog : invScaleRound (scaleRound w s) s = satU32 q := by
    show satU32 (roundHalfAway (((scaleRound w s : ℕ) : ℚ) / s)) = satU32 q
    rw [hphys, hround2]
  rw [hlog]
  show ((if q < 0 then 0 else min q.toNat (2 ^ 32 - 1) : ℕ) : ℤ) ≤ (w : ℤ) + 1 ∧
    (w : ℤ) ≤ ((if q < 0 then 0 else min q.toNat (2 ^ 32 - 1) : ℕ) : ℤ) + 1
  constructor
  · split
    · omega
    · omega
  · split
    · omega
    · omega

theorem scaleRound_three_tenth : scaleRound 3 (1 / 10) = 0 := by
  have h : roundHalfAway (((3 : ℕ) : ℚ) * (1 / 10)) = 0 := by
    unfold roundHalfAway
    rw [if_pos (by norm_num)]
    norm_num
  show satU32 (roundHalfAway (((3 : ℕ) : ℚ) * (1 / 10))) = 0
  rw [h]
  decide

theorem invScaleRound_zero_tenth : invScaleRound 0 (1 / 10) = 0 := by
  have h : roundHalfAway (((0 : ℕ) : ℚ) / (1 / 10)) = 0 := by
    unfold roundHalfAway
    rw [if_pos (by norm_num)]
    norm_num
  show satU32 (roundHalfAway (((0 : ℕ) : ℚ) / (1 / 10))) = 0
  rw [h]
  decide

/-! ## C9 -/

/-- C9 counterexample: at scale 1/10 (hand checkable in f64: 3.0 * 0.1
rounds to 0.0, and 0.0 / 0.1 rounds to 0.0), a 3 by 3 size round-trips
through `to_physical` then `to_logical` to 0 by 0, which differs from the
original by 3 per axis — more than the claimed 1 unit — refuting the
claim for arbitrary positive scale factors. -/
theorem c9_counterexample :
    (Size.mk 3 3).to_physical (1 / 10) = ⟨0, 0⟩ ∧
    ((Size.mk 3 3).to_physical (1 / 10)).to_logical (1 / 10) = ⟨0, 0⟩ ∧
    ¬((3 : ℤ) - ((((Size.mk 3 3).to_physical (1 / 10)).to_logical (1 / 10)).width : ℤ) ≤ 1) := by
  have h1 : (Size.mk 3 3).to_physical (1 / 10) = ⟨0, 0⟩ := by
    show Size.mk (scaleRound 3 (1 / 10)) (scaleRound 3 (1 / 10)) = _
    rw [scaleRound_three_tenth]
  have h2 : ((Size.mk 3 3).to_physical (1 / 10)).to_logical (1 / 10) = ⟨0, 0⟩ := by
    rw [h1]
    show Size.mk (invScaleRound 0 (1 / 10)) (invScaleRound 0 (1 / 10)) = _
    rw [invScaleRound_zero_tenth]
  refine ⟨h1, h2, ?_⟩
  rw [h2]
  decide

/-- C9 (amended): for every `Size` and every scale factor of at least 1/2
whose physical image does not overflow the `u32` saturation bound,
`to_physical` then `to_logical` reproduces each axis within 1 unit (in the
exact-rational model of the f64 arithmetic). -/
theorem c9_roundtrip_within_one (sz : Size) (s : ℚ) (hs : 1 / 2 ≤ s)
    (hw : sz.width ≤ 2 ^ 32 - 1) (hh : sz.height ≤ 2 ^ 32 - 1)
    (hnw : (sz.width : ℚ) * s + 1 / 2 < 2 ^ 32)
    (hnh : (sz.height : ℚ) * s + 1 / 2 < 2 ^ 32) :
    (((sz.to_physical s).to_logical s).width : ℤ) ≤ (sz.width : ℤ) + 1 ∧
    (sz.width : ℤ) ≤ (((sz.to_physical s).to_logical s).width : ℤ) + 1 ∧
    (((sz.to_physical s).to_logical s).height : ℤ) ≤ (sz.height : ℤ) + 1 ∧
    (sz.height : ℤ) ≤ (((sz.to_physical s).to_logical s).height : ℤ) + 1 := by
  have hwres := axis_roundtrip sz.width s hs hw hnw
  have hhres := axis_roundtrip sz.height s hs hh hnh
  exact ⟨hwres.1, hwres.2, hhres.1, hhres.2⟩

/-- C9 witness: the bounds discharged at 1920 by 1080 with scale 6/5 (the
144/120 fractional scale). -/
theorem c9_witness :
    ((((Size.mk 1920 1080).to_physical (6 / 5)).to_logical (6 / 5)).width : ℤ) ≤
      (1920 : ℤ) + 1 ∧
    (1920 : ℤ) ≤
      ((((Size.mk 1920 1080).to_physical (6 / 5)).to_logical (6 / 5)).width : ℤ) + 1 ∧
    ((((Size.mk 1920 1080).to_physical (6 / 5)).to_logical (6 / 5)).height : ℤ) ≤
      (1080 : ℤ) + 1 ∧
    (1080 : ℤ) ≤
      ((((Size.mk 1920 1080).to_physical (6 / 5)).to_logical (6 / 5)).height : ℤ) + 1 :=
  c9_roundtrip_within_one ⟨1920, 1080⟩ (6 / 5) (by norm_num) (by norm_num) (by norm_num)
    (by norm_num) (by norm_num)

end Bscreen
